import Mathlib

/-!
# To-do list stores of the repository

Two variants of the same persisted list-management component are embedded:

* `Task2`    : the module-level variant of `src/Task2/script.js`
  (globals `todos`, `todoFilter`, functions `addTodo`, `toggleTodo`, ...);
* `TodoList` : the class variant of `src/task 2/script.js`
  (class `TodoList` with `this.todos`, `this.currentFilter`).

JavaScript strings are modelled by `String`, the numbers used as task ids
(`Date.now()`, integers) by `Int`.  The clock is read twice when a task is
created (`Date.now()` and `new Date().toISOString()`); both readings are
arguments of `addTodo`.
-/

/-- A task record `{ id, text, completed, createdAt }`, called `todo` in the code. -/
structure Todo where
  id : Int
  text : String
  completed : Bool
  createdAt : String
deriving DecidableEq, Repr

/-! ## `String.prototype.trim` -/

/-- The code points removed by `String.prototype.trim`: ECMAScript `WhiteSpace`
(TAB, VT, FF, ZWNBSP and the Unicode space separators) and `LineTerminator`
(LF, CR, LS, PS). -/
def isTrimChar (c : Char) : Bool :=
  let n := c.toNat
  n == 0x09 || n == 0x0A || n == 0x0B || n == 0x0C || n == 0x0D || n == 0x20 ||
  n == 0xA0 || n == 0x1680 || (0x2000 ≤ n && n ≤ 0x200A) || n == 0x2028 ||
  n == 0x2029 || n == 0x202F || n == 0x205F || n == 0x3000 || n == 0xFEFF

/-- Trimming on code-point lists: drop the leading and the trailing run of
trim characters. -/
def trimChars (cs : List Char) : List Char :=
  ((cs.dropWhile isTrimChar).reverse.dropWhile isTrimChar).reverse

/-- The method `s.trim()`. -/
def jsTrim (s : String) : String := ⟨trimChars s.data⟩

/-! ## Shared list steps

The array expressions that occur verbatim in both variants. -/

/-- The expression `todos.filter(todo => todo.id !== id)`. -/
def removeById (id : Int) (todos : List Todo) : List Todo :=
  todos.filter (fun todo => todo.id != id)

/-- The expression `todos.filter(todo => !todo.completed)`. -/
def activeTodos (todos : List Todo) : List Todo :=
  todos.filter (fun todo => !todo.completed)

/-- The expression `todos.filter(todo => todo.completed)`. -/
def completedTodos (todos : List Todo) : List Todo :=
  todos.filter (fun todo => todo.completed)

/-- The `switch` of `getFilteredTodos`, identical in both variants: the filter
is a string, and every value other than `'active'` and `'completed'` takes the
`default` branch. -/
def filterTodos (filter : String) (todos : List Todo) : List Todo :=
  if filter = "active" then activeTodos todos
  else if filter = "completed" then completedTodos todos
  else todos

/-! ## JSON values and JSON text

`localStorage` holds text.  `JSON.stringify` is modelled on arrays of task
records, the only values the stores ever save; `JSON.parse` is modelled on
every text, following the JSON grammar of ECMA-404 that `JSON.parse` accepts.
A number is modelled by the exact value of its literal. -/

/-- JavaScript values that `JSON.parse` can return.  An object is the list of
its members in textual order. -/
inductive Json where
  | null
  | bool (b : Bool)
  | num (q : ℚ)
  | str (s : String)
  | arr (xs : List Json)
  | obj (members : List (String × Json))

/-- The JavaScript object that a task record is. -/
def Todo.toJson (todo : Todo) : Json :=
  Json.obj [("id", Json.num todo.id), ("text", Json.str todo.text),
    ("completed", Json.bool todo.completed), ("createdAt", Json.str todo.createdAt)]

/-- The JavaScript array that a task sequence is. -/
def todosToJson (todos : List Todo) : Json :=
  Json.arr (todos.map Todo.toJson)

namespace JSON

/-! ### `JSON.stringify` on task arrays -/

/-- Decimal digit `d < 10` as a character. -/
def digitChar (d : Nat) : Char := Char.ofNat (48 + d)

/-- Lower-case hexadecimal digit `d < 16` as a character. -/
def hexChar (d : Nat) : Char := if d < 10 then Char.ofNat (48 + d) else Char.ofNat (87 + d)

/-- Decimal digits of a natural number, most significant first, pushed in
front of `acc`. -/
def natDigitsCore : Nat → Nat → List Char → List Char
  | 0, _, acc => acc
  | fuel + 1, n, acc =>
    if n / 10 = 0 then digitChar (n % 10) :: acc
    else natDigitsCore fuel (n / 10) (digitChar (n % 10) :: acc)

/-- Decimal digits of a natural number. -/
def natDigits (n : Nat) : List Char := natDigitsCore (n + 1) n []

/-- `Number::toString` on an integer: decimal digits, with a leading minus
sign for a negative one (the form JavaScript prints below `10^21`, far above
every `Date.now()`). -/
def intChars : Int → List Char
  | Int.ofNat n => natDigits n
  | Int.negSucc n => '-' :: natDigits (n + 1)

/-- `QuoteJSONString` on one code point: the two-character escapes, `\u00XX`
for the other control characters, the code point itself otherwise. -/
def quoteChar (c : Char) : List Char :=
  if c = '"' then ['\\', '"']
  else if c = '\\' then ['\\', '\\']
  else if c.toNat = 8 then ['\\', 'b']
  else if c.toNat = 9 then ['\\', 't']
  else if c.toNat = 10 then ['\\', 'n']
  else if c.toNat = 12 then ['\\', 'f']
  else if c.toNat = 13 then ['\\', 'r']
  else if c.toNat < 32 then ['\\', 'u', '0', '0', hexChar (c.toNat / 16), hexChar (c.toNat % 16)]
  else [c]

/-- `QuoteJSONString`: the string between double quotes, escaped. -/
def quoteChars (s : String) : List Char :=
  '"' :: (s.data.flatMap quoteChar ++ ['"'])

/-- `SerializeJSONProperty` on a boolean. -/
def boolChars (b : Bool) : List Char := if b then "true".data else "false".data

/-- `SerializeJSONObject` on a task record: its four properties in creation
order, without white space. -/
def todoChars (todo : Todo) : List Char :=
  "\x7b\"id\":".data ++ intChars todo.id ++
  ",\"text\":".data ++ quoteChars todo.text ++
  ",\"completed\":".data ++ boolChars todo.completed ++
  ",\"createdAt\":".data ++ quoteChars todo.createdAt ++ ['}']

/-- The elements of an array, separated by commas. -/
def elementsChars : List Todo → List Char
  | [] => []
  | [todo] => todoChars todo
  | todo :: rest => todoChars todo ++ ',' :: elementsChars rest

/-- `JSON.stringify(todos)` for an array of task records. -/
def stringify (todos : List Todo) : String :=
  ⟨'[' :: (elementsChars todos ++ [']'])⟩

/-! ### `JSON.parse` -/

/-- JSON white space: space, tab, line feed, carriage return. -/
def isWs (c : Char) : Bool :=
  c.toNat = 32 || c.toNat = 9 || c.toNat = 10 || c.toNat = 13

/-- Skip JSON white space. -/
def skipWs (cs : List Char) : List Char := cs.dropWhile isWs

/-- Decimal digit test. -/
def isDigit (c : Char) : Bool := 48 ≤ c.toNat && c.toNat ≤ 57

/-- Value of a decimal digit. -/
def digitVal (c : Char) : Nat := c.toNat - 48

/-- Value of a hexadecimal digit, either case. -/
def hexVal (c : Char) : Option Nat :=
  let n := c.toNat
  if 48 ≤ n ∧ n ≤ 57 then some (n - 48)
  else if 97 ≤ n ∧ n ≤ 102 then some (n - 87)
  else if 65 ≤ n ∧ n ≤ 70 then some (n - 55)
  else none

/-- Read the longest run of decimal digits: its value on top of `acc`, the
number of digits read on top of `count`, and the rest of the text. -/
def readDigits : List Char → Nat → Nat → Nat × Nat × List Char
  | [], acc, count => (acc, count, [])
  | c :: cs, acc, count =>
    if isDigit c then readDigits cs (acc * 10 + digitVal c) (count + 1)
    else (acc, count, c :: cs)

/-- The integer part of a number: a single `0`, or a digit run that starts
with a non-zero digit. -/
def readInt : List Char → Except String (Nat × List Char)
  | [] => .error "Unexpected end of JSON input"
  | c :: cs =>
    if c = '0' then .ok (0, cs)
    else if isDigit c then
      let r := readDigits (c :: cs) 0 0
      .ok (r.1, r.2.2)
    else .error "No number after minus sign"

/-- The optional fraction `.digits` of a number, added to `v`. -/
def readFrac (v : ℚ) : List Char → Except String (ℚ × List Char)
  | c :: cs =>
    if c = '.' then
      let r := readDigits cs 0 0
      if r.2.1 = 0 then .error "Unterminated fractional number"
      else .ok (v + (r.1 : ℚ) / (10 : ℚ) ^ r.2.1, r.2.2)
    else .ok (v, c :: cs)
  | [] => .ok (v, [])

/-- The digits of an exponent, after its sign. -/
def readExpDigits (v : ℚ) (negative : Bool) (cs : List Char) : Except String (ℚ × List Char) :=
  let r := readDigits cs 0 0
  if r.2.1 = 0 then .error "Exponent part is missing a number"
  else if negative then .ok (v / (10 : ℚ) ^ r.1, r.2.2)
  else .ok (v * (10 : ℚ) ^ r.1, r.2.2)

/-- The optional exponent `e±digits` of a number, applied to `v`. -/
def readExp (v : ℚ) : List Char → Except String (ℚ × List Char)
  | c :: cs =>
    if c = 'e' ∨ c = 'E' then
      match cs with
      | s :: cs1 =>
        if s = '+' then readExpDigits v false cs1
        else if s = '-' then readExpDigits v true cs1
        else readExpDigits v false (s :: cs1)
      | [] => .error "Exponent part is missing a number"
    else .ok (v, c :: cs)
  | [] => .ok (v, [])

/-- A number without its sign: integer part, fraction, exponent. -/
def readUnsigned (cs : List Char) : Except String (ℚ × List Char) :=
  match readInt cs with
  | .error e => .error e
  | .ok (m, cs1) =>
    match readFrac (m : ℚ) cs1 with
    | .error e => .error e
    | .ok (v, cs2) => readExp v cs2

/-- A JSON number: `-? int frac? exp?`. -/
def parseNumber : List Char → Except String (ℚ × List Char)
  | [] => .error "Unexpected end of JSON input"
  | c :: cs =>
    if c = '-' then
      match readUnsigned cs with
      | .error e => .error e
      | .ok (v, rest) => .ok (-v, rest)
    else readUnsigned (c :: cs)

/-- One element of a string while it is read: a code point written literally,
or a UTF-16 code unit written as a `\uXXXX` escape. -/
inductive StrItem where
  | lit (c : Char)
  | unit (n : Nat)

/-- Build the string from what was read.  An escaped high surrogate followed by
an escaped low surrogate is one code point; an escaped surrogate without its
partner, which `Char` cannot hold, is read as U+FFFD. -/
def decodeItems : List StrItem → List Char
  | [] => []
  | StrItem.lit c :: rest => c :: decodeItems rest
  | StrItem.unit n :: rest =>
    let tail := decodeItems rest
    if 0xD800 ≤ n ∧ n ≤ 0xDBFF then
      match rest with
      | StrItem.unit lo :: rest1 =>
        if 0xDC00 ≤ lo ∧ lo ≤ 0xDFFF then
          Char.ofNat (0x10000 + (n - 0xD800) * 0x400 + (lo - 0xDC00)) :: decodeItems rest1
        else Char.ofNat 0xFFFD :: tail
      | _ => Char.ofNat 0xFFFD :: tail
    else if 0xDC00 ≤ n ∧ n ≤ 0xDFFF then Char.ofNat 0xFFFD :: tail
    else Char.ofNat n :: tail

/-- The four hexadecimal digits of a `\u` escape. -/
def readHex4 : List Char → Option (Nat × List Char)
  | a :: b :: c :: d :: rest =>
    match hexVal a, hexVal b, hexVal c, hexVal d with
    | some x, some y, some z, some w => some (((x * 16 + y) * 16 + z) * 16 + w, rest)
    | _, _, _, _ => none
  | _ => none

/-- The character after a backslash in a two-character escape. -/
def simpleEscape (c : Char) : Option Char :=
  if c = '"' then some '"'
  else if c = '\\' then some '\\'
  else if c = '/' then some '/'
  else if c = 'b' then some (Char.ofNat 8)
  else if c = 'f' then some (Char.ofNat 12)
  else if c = 'n' then some (Char.ofNat 10)
  else if c = 'r' then some (Char.ofNat 13)
  else if c = 't' then some (Char.ofNat 9)
  else none

/-- The body of a string, after the opening quote, up to the closing one.
`acc` holds what was read, last first.  The fuel bounds the number of
characters and escapes read. -/
def parseStringBody : Nat → List Char → List StrItem → Except String (String × List Char)
  | 0, _, _ => .error "Unterminated string in JSON"
  | _ + 1, [], _ => .error "Unterminated string in JSON"
  | fuel + 1, c :: cs, acc =>
    if c = '"' then .ok (⟨decodeItems acc.reverse⟩, cs)
    else if c = '\\' then
      match cs with
      | [] => .error "Unterminated string in JSON"
      | e :: cs1 =>
        if e = 'u' then
          match readHex4 cs1 with
          | some (n, cs2) => parseStringBody fuel cs2 (StrItem.unit n :: acc)
          | none => .error "Bad Unicode escape in JSON"
        else
          match simpleEscape e with
          | some x => parseStringBody fuel cs1 (StrItem.lit x :: acc)
          | none => .error "Bad escaped character in JSON"
    else if c.toNat < 32 then .error "Bad control character in string literal in JSON"
    else parseStringBody fuel cs (StrItem.lit c :: acc)

/-- A string, after its opening quote. -/
def parseString (cs : List Char) : Except String (String × List Char) :=
  parseStringBody (cs.length + 1) cs []

/-- Remove the characters of a keyword from the front of the text. -/
def stripPrefix : List Char → List Char → Option (List Char)
  | [], cs => some cs
  | _ :: _, [] => none
  | k :: ks, c :: cs => if k = c then stripPrefix ks cs else none

mutual

/-- A JSON value at the front of the text (no leading white space), and the
text after it.  The fuel bounds the nesting depth plus the number of elements
read; `parse` supplies more than the length of the text. -/
def parseValue : Nat → List Char → Except String (Json × List Char)
  | 0, _ => .error "Unexpected end of JSON input"
  | _ + 1, [] => .error "Unexpected end of JSON input"
  | fuel + 1, c :: cs =>
    if c = '{' then
      match skipWs cs with
      | [] => .error "Unexpected end of JSON input"
      | d :: cs1 =>
        if d = '}' then .ok (Json.obj [], cs1)
        else parseMembers fuel (d :: cs1) []
    else if c = '[' then
      match skipWs cs with
      | [] => .error "Unexpected end of JSON input"
      | d :: cs1 =>
        if d = ']' then .ok (Json.arr [], cs1)
        else parseElements fuel (d :: cs1) []
    else if c = '"' then
      match parseString cs with
      | .error e => .error e
      | .ok (s, rest) => .ok (Json.str s, rest)
    else if c = '-' ∨ isDigit c then
      match parseNumber (c :: cs) with
      | .error e => .error e
      | .ok (q, rest) => .ok (Json.num q, rest)
    else
      match stripPrefix "true".data (c :: cs) with
      | some rest => .ok (Json.bool true, rest)
      | none =>
        match stripPrefix "false".data (c :: cs) with
        | some rest => .ok (Json.bool false, rest)
        | none =>
          match stripPrefix "null".data (c :: cs) with
          | some rest => .ok (Json.null, rest)
          | none => .error "Unexpected token in JSON"

/-- The elements of a non-empty array, after `[` and white space, up to `]`.
`acc` holds the elements read, last first. -/
def parseElements : Nat → List Char → List Json → Except String (Json × List Char)
  | 0, _, _ => .error "Unexpected end of JSON input"
  | fuel + 1, cs, acc =>
    match parseValue fuel cs with
    | .error e => .error e
    | .ok (v, rest) =>
      match skipWs rest with
      | [] => .error "Unexpected end of JSON input"
      | d :: cs1 =>
        if d = ',' then parseElements fuel (skipWs cs1) (v :: acc)
        else if d = ']' then .ok (Json.arr (v :: acc).reverse, cs1)
        else .error "Unexpected token in JSON"

/-- The members of a non-empty object, after `{` and white space, up to `}`.
`acc` holds the members read, last first. -/
def parseMembers : Nat → List Char → List (String × Json) → Except String (Json × List Char)
  | 0, _, _ => .error "Unexpected end of JSON input"
  | _ + 1, [], _ => .error "Unexpected end of JSON input"
  | fuel + 1, q :: cs, acc =>
    if q = '"' then
      match parseString cs with
      | .error e => .error e
      | .ok (key, rest) =>
        match skipWs rest with
        | [] => .error "Unexpected end of JSON input"
        | d :: cs1 =>
          if d = ':' then
            match parseValue fuel (skipWs cs1) with
            | .error e => .error e
            | .ok (v, rest1) =>
              match skipWs rest1 with
              | [] => .error "Unexpected end of JSON input"
              | d1 :: cs2 =>
                if d1 = ',' then parseMembers fuel (skipWs cs2) ((key, v) :: acc)
                else if d1 = '}' then .ok (Json.obj ((key, v) :: acc).reverse, cs2)
                else .error "Unexpected token in JSON"
          else .error "Unexpected token in JSON"
    else .error "Unexpected token in JSON"

end

/-- `JSON.parse(text)`: one value, surrounded by optional white space, and
nothing else; a `SyntaxError` otherwise. -/
def parse (text : String) : Except String Json :=
  match parseValue (text.data.length + 1) (skipWs text.data) with
  | .error e => .error e
  | .ok (v, rest) =>
    match skipWs rest with
    | [] => .ok v
    | _ :: _ => .error "Unexpected non-whitespace character after JSON"

end JSON

/-! ## Truthiness -/

/-- JavaScript `ToBoolean` on a parsed value: `null`, `false`, `0` and the
empty string are falsy, everything else (every array and object) is truthy. -/
def Json.truthy : Json → Bool
  | Json.null => false
  | Json.bool b => b
  | Json.num q => q != 0
  | Json.str s => s != ""
  | Json.arr _ => true
  | Json.obj _ => true

/-- The property read `value[key]` on a parsed object: the value of the last
member with that key; `none` stands for `undefined`. -/
def Json.getProp (key : String) : Json → Option Json
  | Json.obj members => (members.reverse.find? (fun member => member.1 == key)).map (fun member => member.2)
  | _ => none

/-! ## The module-level variant (`src/Task2/script.js`) -/

namespace Task2

/-- The globals and the environment the to-do functions read and write:
`todos`, `todoFilter`, the `localStorage` item `'todos'` (absent: `none`) and
`todoInput.value`. -/
structure State where
  todos : List Todo
  todoFilter : String
  stored : Option String
  inputValue : String
deriving DecidableEq, Repr

/-- The initial load `JSON.parse(localStorage.getItem('todos')) || []`.
`getItem` answers `null` for an absent item, which `JSON.parse` reads as the
text `null`.  A `SyntaxError` of `JSON.parse` is not caught. -/
def loadTodos (stored : Option String) : Except String Json :=
  match JSON.parse (match stored with | none => "null" | some text => text) with
  | .error e => .error e
  | .ok v => if v.truthy then .ok v else .ok (Json.arr [])

/-- The function `saveTodos`. -/
def saveTodos (s : State) : State :=
  { s with stored := some (JSON.stringify s.todos) }

/-- The function `addTodo`, at the clock readings `now` (`Date.now()`) and
`iso` (`new Date().toISOString()`).  Rendering does not touch the state. -/
def addTodo (now : Int) (iso : String) (s : State) : State :=
  let text := jsTrim s.inputValue
  if text = "" then s
  else
    let todo : Todo := { id := now, text := text, completed := false, createdAt := iso }
    { saveTodos { s with todos := todo :: s.todos } with inputValue := "" }

/-- The function `deleteTodo`. -/
def deleteTodo (id : Int) (s : State) : State :=
  saveTodos { s with todos := removeById id s.todos }

/-- The function `toggleTodo`: every task is mapped, the ones with the given
id to a copy with `completed` negated. -/
def toggleTodo (id : Int) (s : State) : State :=
  saveTodos { s with todos := s.todos.map (fun todo =>
    if todo.id = id then { todo with completed := !todo.completed } else todo) }

/-- The function `editTodo`. -/
def editTodo (id : Int) (newText : String) (s : State) : State :=
  saveTodos { s with todos := s.todos.map (fun todo =>
    if todo.id = id then { todo with text := newText } else todo) }

/-- The function `getFilteredTodos`. -/
def getFilteredTodos (s : State) : List Todo :=
  filterTodos s.todoFilter s.todos

/-- The function `clearCompleted`. -/
def clearCompleted (s : State) : State :=
  saveTodos { s with todos := activeTodos s.todos }

/-- A reload sees the in-memory sequence: the initial load of the stored item
gives the array `todos`. -/
def Synced (s : State) : Prop :=
  loadTodos s.stored = .ok (todosToJson s.todos)

end Task2

/-! ## The class variant (`src/task 2/script.js`) -/

namespace TodoList

/-- A callback handed to `setTimeout(..., 300)` and not run yet. -/
inductive Timer where
  /-- The callback of `deleteTodo(id)`. -/
  | removeTodo (id : Int)
  /-- The callback of `clearCompleted()`. -/
  | removeCompleted
deriving DecidableEq, Repr

/-- The fields of a `TodoList` and the environment its methods read and write:
`this.todos`, `this.currentFilter`, the `localStorage` item `'todoList'`,
the value of `#todoInput`, the `data-id` of the `<li>` elements that the last
`render()` put into `#todoList`, and the pending timers, oldest first. -/
structure State where
  todos : List Todo
  currentFilter : String
  stored : Option String
  inputValue : String
  rendered : List Int
  timers : List Timer
deriving DecidableEq, Repr

/-- The method `loadFromStorage`: `saved ? JSON.parse(saved) : []` inside
`try`, and `[]` from the `catch`.  An absent item and the empty text are
falsy. -/
def loadFromStorage (stored : Option String) : Json :=
  match stored with
  | none => Json.arr []
  | some saved =>
    if saved = "" then Json.arr []
    else
      match JSON.parse saved with
      | .ok v => v
      | .error _ => Json.arr []

/-- The method `saveToStorage`. -/
def saveToStorage (s : State) : State :=
  { s with stored := some (JSON.stringify s.todos) }

/-- The method `getFilteredTodos`. -/
def getFilteredTodos (s : State) : List Todo :=
  filterTodos s.currentFilter s.todos

/-- The method `render`: one `<li data-id=...>` for each filtered task (none
in the empty state). -/
def render (s : State) : State :=
  { s with rendered := (getFilteredTodos s).map (fun todo => todo.id) }

/-- The method `addTodo`, at the clock readings `now` and `iso`. -/
def addTodo (now : Int) (iso : String) (s : State) : State :=
  let text := jsTrim s.inputValue
  if text = "" then s
  else
    let todo : Todo := { id := now, text := text, completed := false, createdAt := iso }
    { render (saveToStorage { s with todos := todo :: s.todos }) with inputValue := "" }

/-- The assignment `todo.completed = !todo.completed` on the task that
`this.todos.find(todo => todo.id === id)` returns, the first with that id. -/
def flipFirst (id : Int) : List Todo → List Todo
  | [] => []
  | todo :: rest =>
    if todo.id = id then { todo with completed := !todo.completed } :: rest
    else todo :: flipFirst id rest

/-- The method `toggleTodo`. -/
def toggleTodo (id : Int) (s : State) : State :=
  match s.todos.find? (fun todo => todo.id == id) with
  | some _ => render (saveToStorage { s with todos := flipFirst id s.todos })
  | none => s

/-- The method `deleteTodo`: when an element with that `data-id` is rendered,
the removal is handed to a timer. -/
def deleteTodo (id : Int) (s : State) : State :=
  if id ∈ s.rendered then { s with timers := s.timers ++ [Timer.removeTodo id] }
  else s

/-- The method `clearCompleted`: nothing when no task is completed, otherwise
the removal is handed to a timer. -/
def clearCompleted (s : State) : State :=
  if (completedTodos s.todos).length = 0 then s
  else { s with timers := s.timers ++ [Timer.removeCompleted] }

/-- Run the callback of a timer. -/
def fire (timer : Timer) (s : State) : State :=
  match timer with
  | Timer.removeTodo id => render (saveToStorage { s with todos := removeById id s.todos })
  | Timer.removeCompleted => render (saveToStorage { s with todos := activeTodos s.todos })

/-- The oldest pending timer expires. -/
def tick (s : State) : State :=
  match s.timers with
  | [] => s
  | timer :: rest => fire timer { s with timers := rest }

/-- All pending timers expire, oldest first (they share one delay). -/
def settle (s : State) : State :=
  s.timers.foldl (fun st timer => fire timer st) { s with timers := [] }

/-- A reload sees the in-memory sequence: `loadFromStorage` on the stored item
gives the array `this.todos`. -/
def Synced (s : State) : Prop :=
  loadFromStorage s.stored = todosToJson s.todos

end TodoList

/-! ## Editing, filter buttons and the task counter -/

namespace Task2

/-- The closure `finishEdit` of `startEdit(textElement, id)`, run on Enter and on
blur: `currentText` is `textElement.textContent` when the edit started,
`inputValue` the value of the edit field.  `editTodo` is called only when the
trimmed value is not empty and differs from `currentText`; otherwise the old
text is shown again and the state is not touched. -/
def finishEdit (id : Int) (currentText inputValue : String) (s : State) : State :=
  let newText := jsTrim inputValue
  if newText ≠ "" ∧ newText ≠ currentText then editTodo id newText s
  else s

/-- The click handler that `initializeTodoList` puts on every filter button:
`todoFilter = e.target.dataset.filter`, then the buttons and the list are drawn
again. -/
def onFilterClick (filter : String) (s : State) : State :=
  { s with todoFilter := filter }

/-- The function `updateTaskCount`: the text it writes into `taskCount`. -/
def updateTaskCount (s : State) : String :=
  let activeCount := (s.todos.filter (fun todo => !todo.completed)).length
  String.mk (JSON.natDigits activeCount) ++ " task" ++ (if activeCount ≠ 1 then "s" else "")
    ++ " remaining"

end Task2

namespace TodoList

/-- The method `setFilter`, called from the click on a filter button, whose
`data-filter` is the argument (so the button that is marked active exists). -/
def setFilter (filter : String) (s : State) : State :=
  render { s with currentFilter := filter }

/-- What the method `updateTaskCount` writes: the HTML of the counter and the
`disabled` flag of the clear-completed button. -/
structure Counter where
  html : String
  clearDisabled : Bool
deriving DecidableEq, Repr

/-- The method `updateTaskCount`. -/
def updateTaskCount (s : State) : Counter :=
  let activeTasks := (s.todos.filter (fun todo => !todo.completed)).length
  let completedTasks := (s.todos.filter (fun todo => todo.completed)).length
  { html := "<span id=\"taskCount\">" ++ String.mk (JSON.natDigits activeTasks) ++ "</span> "
      ++ (if activeTasks = 1 then "task" else "tasks") ++ " remaining"
    clearDisabled := decide (completedTasks = 0) }

end TodoList

/-! ## Strings as JavaScript sees them -/

/-- The property `s.length`: the number of UTF-16 code units, two for a code
point above U+FFFF. -/
def jsLength (s : String) : Nat :=
  (s.data.map (fun c => if c.toNat < 0x10000 then 1 else 2)).sum

/-- A character of the class `[a-zA-Z]`. -/
def isAsciiLetter (c : Char) : Bool :=
  (97 ≤ c.toNat && c.toNat ≤ 122) || (65 ≤ c.toNat && c.toNat ≤ 90)

/-! ## Form validation (`src/task4/js/forms.js`, `src/Task2/script.js`) -/

namespace FormSystem

/-- The loop of `validateCreditCard`, run over the digits from the last to the
first: `rest` holds the digits still to visit, `sum` and `isEven` are the
variables of the loop. -/
def luhnLoop : List Char → Nat → Bool → Nat
  | [], sum, _ => sum
  | c :: rest, sum, isEven =>
    let digit := JSON.digitVal c
    let digit := if isEven then (if digit * 2 > 9 then digit * 2 - 9 else digit * 2) else digit
    luhnLoop rest (sum + digit) (!isEven)

/-- The method `validateCreditCard`: `number.replace(/\D/g, '')` keeps the
characters `0` to `9`. -/
def validateCreditCard (number : String) : Bool :=
  let digits := number.data.filter JSON.isDigit
  if digits.length < 13 ∨ digits.length > 19 then false
  else luhnLoop digits.reverse 0 false % 10 == 0

/-- The Luhn sum in the words of the specification: the digits are counted from
the right, the last one at position 0; every second digit, starting with the
second-to-last (the odd positions), is doubled and reduced by 9 when the double
exceeds 9; all digits are then added. -/
def luhnSum (digits : List Nat) : Nat :=
  (digits.reverse.enum.map (fun entry =>
    if entry.1 % 2 = 1 then (if 2 * entry.2 > 9 then 2 * entry.2 - 9 else 2 * entry.2)
    else entry.2)).sum

/-- The digits of a string, all other characters removed. -/
def digitsOf (number : String) : List Nat :=
  (number.data.filter JSON.isDigit).map JSON.digitVal

/-- The test of the `name` validator:
`value.length >= 2 && /^[a-zA-Z\s]+$/.test(value)`.  The class `\s` is the set
of characters that `trim` removes. -/
def nameTest (value : String) : Bool :=
  decide (jsLength value ≥ 2)
    && (!value.data.isEmpty && value.data.all (fun c => isAsciiLetter c || isTrimChar c))

end FormSystem

namespace Task2

/-- The `case 'message'` of `validateField`, on the value of the field: the
pair of `isValid` and `errorMessage` it ends with. -/
def validateMessageField (fieldValue : String) : Bool × String :=
  let value := jsTrim fieldValue
  if value = "" then (false, "Message is required")
  else if jsLength value < 10 then (false, "Message must be at least 10 characters")
  else if jsLength value > 1000 then (false, "Message must be less than 1000 characters")
  else (true, "")

/-- The replacement that `escapeHtml` looks up in `map` for one matched
character, and the character itself when `/[&<>"']/` does not match it. -/
def escapeChar (c : Char) : List Char :=
  if c = '&' then "&amp;".data
  else if c = '<' then "&lt;".data
  else if c = '>' then "&gt;".data
  else if c = '"' then "&quot;".data
  else if c = Char.ofNat 39 then "&#039;".data
  else [c]

/-- The function `escapeHtml`: `text.replace(/[&<>"']/g, m => map[m])`. -/
def escapeHtml (text : String) : String :=
  ⟨text.data.flatMap escapeChar⟩

end Task2

/-! ## Runs of the to-do stores -/

namespace Task2

/-- One action of the user on the page of the module-level variant. -/
inductive Action where
  /-- Type `input` into the field and run `addTodo` at the clock readings. -/
  | add (input : String) (now : Int) (iso : String)
  /-- Click on the checkbox of a task: `toggleTodo(id)`. -/
  | toggle (id : Int)
  /-- Click on Delete: `deleteTodo(id)`. -/
  | delete (id : Int)
  /-- A call `editTodo(id, newText)`. -/
  | edit (id : Int) (newText : String)
  /-- Click on Clear completed: `clearCompleted()`. -/
  | clear
  /-- Click on a filter button. -/
  | filter (value : String)

/-- The effect of one action. -/
def Action.apply : Action → State → State
  | Action.add input now iso, s => addTodo now iso { s with inputValue := input }
  | Action.toggle id, s => toggleTodo id s
  | Action.delete id, s => deleteTodo id s
  | Action.edit id newText, s => editTodo id newText s
  | Action.clear, s => clearCompleted s
  | Action.filter value, s => onFilterClick value s

/-- The actions one after the other. -/
def run (actions : List Action) (s : State) : State :=
  actions.foldl (fun st action => action.apply st) s

/-- The store when the page is loaded with nothing stored. -/
def emptyStore : State :=
  { todos := [], todoFilter := "all", stored := none, inputValue := "" }

/-- The clock readings `Date.now()` taken during the actions, in order of time:
one for each `addTodo` that gets past the empty-text test. -/
def readings : List Action → List Int
  | [] => []
  | Action.add input now _ :: rest =>
    if jsTrim input = "" then readings rest else now :: readings rest
  | _ :: rest => readings rest

end Task2

namespace TodoList

/-- One action of the user on the page of the class variant, or the expiry of
a timer. -/
inductive Action where
  /-- Type `input` into the field and run `addTodo` at the clock readings. -/
  | add (input : String) (now : Int) (iso : String)
  /-- Click on the checkbox of a task: `toggleTodo(id)`. -/
  | toggle (id : Int)
  /-- Click on the delete button of a task: `deleteTodo(id)`. -/
  | delete (id : Int)
  /-- Click on Clear completed: `clearCompleted()`. -/
  | clear
  /-- Click on a filter button: `setFilter(value)`. -/
  | filter (value : String)
  /-- The oldest pending timer expires. -/
  | expire

/-- The effect of one action. -/
def Action.apply : Action → State → State
  | Action.add input now iso, s => addTodo now iso { s with inputValue := input }
  | Action.toggle id, s => toggleTodo id s
  | Action.delete id, s => deleteTodo id s
  | Action.clear, s => clearCompleted s
  | Action.filter value, s => setFilter value s
  | Action.expire, s => tick s

/-- The actions one after the other. -/
def run (actions : List Action) (s : State) : State :=
  actions.foldl (fun st action => action.apply st) s

/-- The store that the constructor builds when nothing is stored. -/
def emptyStore : State :=
  { todos := [], currentFilter := "all", stored := none, inputValue := "", rendered := [],
    timers := [] }

/-- The clock readings `Date.now()` taken during the actions, in order of time:
one for each `addTodo` that gets past the empty-text test. -/
def readings : List Action → List Int
  | [] => []
  | Action.add input now _ :: rest =>
    if jsTrim input = "" then readings rest else now :: readings rest
  | _ :: rest => readings rest

end TodoList

/-! ## The quiz (`src/task3/main.js`) -/

namespace Quiz

/-- An entry of `quizQuestions`: the options and the index of the correct one
(the question and the explanation texts are not read by the functions below). -/
structure Question where
  options : List String
  correct : Nat
deriving DecidableEq, Repr

/-- The table `quizQuestions`. -/
def quizQuestions : List Question :=
  [ { options := ["display: flex", "position: absolute", "float: left", "margin: auto"],
      correct := 0 },
    { options := ["Application Programming Interface", "Automated Program Integration",
        "Advanced Programming Instructions", "Application Process Integration"],
      correct := 0 },
    { options := ["getData()", "fetch()", "request()", "loadData()"], correct := 1 },
    { options := ["To play media files", "To create responsive designs", "To query databases",
        "To optimize images"],
      correct := 1 },
    { options := ["<div>", "<header>", "<nav>", "<menu>"], correct := 2 } ]

/-- The globals of the quiz and what the page shows of it: `currentQuestionIndex`,
`selectedAnswer` (`none` for `null`), `quizScore`, `nextBtn.disabled`, whether
the option buttons of the question on display are enabled, whether
`showQuizResult` has replaced the question by the result (Next hidden, Restart
shown), and the number of pending `setTimeout` callbacks of
`handleNextQuestion`. -/
structure State where
  currentQuestionIndex : Nat
  selectedAnswer : Option Nat
  quizScore : Nat
  nextDisabled : Bool
  optionsEnabled : Bool
  resultShown : Bool
  timers : Nat
deriving DecidableEq, Repr

/-- The function `showQuizResult`. -/
def showQuizResult (s : State) : State :=
  { s with resultShown := true }

/-- The function `displayQuestion`. -/
def displayQuestion (s : State) : State :=
  if s.currentQuestionIndex ≥ quizQuestions.length then showQuizResult s
  else { s with selectedAnswer := none, nextDisabled := true, optionsEnabled := true }

/-- The function `selectAnswer`. -/
def selectAnswer (answerIndex : Nat) (s : State) : State :=
  { s with selectedAnswer := some answerIndex, nextDisabled := false }

/-- The function `handleNextQuestion`.  Neither `selectedAnswer` nor
`nextBtn.disabled` is touched; the options are disabled and a timer is started.
Past the last question `question` is `undefined` and the handler throws before
it changes anything. -/
def handleNextQuestion (s : State) : State :=
  match s.selectedAnswer with
  | none => s
  | some answer =>
    match quizQuestions[s.currentQuestionIndex]? with
    | none => s
    | some question =>
      { s with
        quizScore := if answer = question.correct then s.quizScore + 1 else s.quizScore
        optionsEnabled := false
        timers := s.timers + 1 }

/-- The callback that `handleNextQuestion` hands to `setTimeout`. -/
def advance (s : State) : State :=
  displayQuestion { s with currentQuestionIndex := s.currentQuestionIndex + 1 }

/-- The function `restartQuiz`. -/
def restartQuiz (s : State) : State :=
  displayQuestion
    { s with currentQuestionIndex := 0, selectedAnswer := none, quizScore := 0,
             resultShown := false }

/-- The state after `initializeQuiz`. -/
def initial : State :=
  displayQuestion
    { currentQuestionIndex := 0, selectedAnswer := none, quizScore := 0, nextDisabled := false,
      optionsEnabled := false, resultShown := false, timers := 0 }

/-- What can happen on the page. -/
inductive Event where
  /-- Click on the option button `answerIndex` of the question on display. -/
  | clickOption (answerIndex : Nat)
  /-- Click on the Next button. -/
  | clickNext
  /-- A pending timer expires. -/
  | timerFires
  /-- Click on the Restart button. -/
  | clickRestart
deriving DecidableEq, Repr

/-- The effect of an event: a click reaches its handler only when the button
is on display and enabled. -/
def step (event : Event) (s : State) : State :=
  match event with
  | Event.clickOption answerIndex =>
    match quizQuestions[s.currentQuestionIndex]? with
    | none => s
    | some question =>
      if s.optionsEnabled ∧ ¬ s.resultShown ∧ answerIndex < question.options.length then
        selectAnswer answerIndex s
      else s
  | Event.clickNext =>
    if ¬ s.nextDisabled ∧ ¬ s.resultShown then handleNextQuestion s else s
  | Event.timerFires =>
    if s.timers = 0 then s else advance { s with timers := s.timers - 1 }
  | Event.clickRestart =>
    if s.resultShown then restartQuiz s else s

/-- The events one after the other. -/
def run (events : List Event) (s : State) : State :=
  events.foldl (fun st event => step event st) s

end Quiz

/-! ## The carousel (`src/task3/main.js`) -/

namespace Carousel

/-- An entry of `galleryImages` (its `url` is read only when the slides are
built). -/
structure Image where
  title : String
  description : String
deriving DecidableEq, Repr

/-- The table `galleryImages`. -/
def galleryImages : List Image :=
  [ { title := "Mountain Lake",
      description := "A serene mountain lake reflecting the sky and surrounding peaks." },
    { title := "Forest Path", description := "A winding path through a dense, green forest." },
    { title := "Ocean Sunset", description := "Golden sunset over the ocean with gentle waves." },
    { title := "Desert Dunes", description := "Rolling sand dunes under a clear blue sky." },
    { title := "Snowy Mountains",
      description := "Snow-capped mountain peaks against a winter sky." } ]

/-- The function `navigateCarousel`, as the new value of `currentImageIndex`.
`%` is the remainder of JavaScript, which takes the sign of the dividend. -/
def navigateCarousel (direction : String) (currentImageIndex : Int) : Int :=
  if direction = "next" then
    Int.tmod (currentImageIndex + 1) (galleryImages.length : Int)
  else
    Int.tmod (currentImageIndex - 1 + (galleryImages.length : Int)) (galleryImages.length : Int)

/-- The percentage `translateX` that `updateCarousel` computes. -/
def translateX (currentImageIndex : Int) : Int :=
  -currentImageIndex * 20

/-- The read `galleryImages[currentImageIndex]` of `updateCarouselInfo`;
`none` stands for `undefined`. -/
def currentImage (currentImageIndex : Int) : Option Image :=
  if currentImageIndex < 0 then none else galleryImages[currentImageIndex.toNat]?

/-- What can happen to the carousel. -/
inductive Event where
  /-- A call `navigateCarousel(direction)`: the buttons and the auto-play. -/
  | navigate (direction : String)
  /-- Click on the indicator that `createCarouselIndicators` made for `index`. -/
  | indicator (index : Nat)
deriving DecidableEq, Repr

/-- The effect of an event on `currentImageIndex`; indicators exist for the
indices of `galleryImages` only. -/
def step (event : Event) (currentImageIndex : Int) : Int :=
  match event with
  | Event.navigate direction => navigateCarousel direction currentImageIndex
  | Event.indicator index =>
    if index < galleryImages.length then (index : Int) else currentImageIndex

/-- The events one after the other. -/
def run (events : List Event) (currentImageIndex : Int) : Int :=
  events.foldl (fun index event => step event index) currentImageIndex

end Carousel

/-! # Theorems -/

/-! ## Helper lemmas on trimming and on the list steps -/

theorem trimChars_eq_nil_of_all (cs : List Char) (h : ∀ c ∈ cs, isTrimChar c = true) :
    trimChars cs = [] := by
  have h1 : cs.dropWhile isTrimChar = [] := List.dropWhile_eq_nil_iff.mpr h
  simp [trimChars, h1]

theorem jsTrim_eq_empty_of_all (input : String) (h : ∀ c ∈ input.data, isTrimChar c = true) :
    jsTrim input = "" := by
  unfold jsTrim
  rw [trimChars_eq_nil_of_all input.data h]

theorem map_flip_eq_self_of_not_mem (id : Int) (L : List Todo) (h : ∀ t ∈ L, t.id ≠ id) :
    L.map (fun todo => if todo.id = id then { todo with completed := !todo.completed } else todo)
      = L := by
  induction L with
  | nil => rfl
  | cons t ts ih =>
    have ht : t.id ≠ id := h t (List.mem_cons_self t ts)
    have hts : ∀ u ∈ ts, u.id ≠ id := fun u hu => h u (List.mem_cons_of_mem t hu)
    simp [ht, ih hts]

theorem map_flip_map_flip (id : Int) (L : List Todo) :
    (L.map (fun todo => if todo.id = id then { todo with completed := !todo.completed } else todo)).map
      (fun todo => if todo.id = id then { todo with completed := !todo.completed } else todo) = L := by
  induction L with
  | nil => rfl
  | cons t ts ih =>
    rw [List.map_cons, List.map_cons, ih]
    by_cases ht : t.id = id
    · subst ht
      simp
    · simp [ht]

theorem removeById_eq_self_of_not_mem (id : Int) (L : List Todo) (h : ∀ t ∈ L, t.id ≠ id) :
    removeById id L = L := by
  unfold removeById
  apply List.filter_eq_self.mpr
  intro t ht
  simpa using h t ht

theorem removeById_append (id : Int) (A B : List Todo) :
    removeById id (A ++ B) = removeById id A ++ removeById id B := by
  simp [removeById]

namespace TodoList

theorem flipFirst_eq_self_of_not_mem (id : Int) (L : List Todo) (h : ∀ t ∈ L, t.id ≠ id) :
    flipFirst id L = L := by
  induction L with
  | nil => rfl
  | cons t ts ih =>
    have ht : t.id ≠ id := h t (List.mem_cons_self t ts)
    have hts : ∀ u ∈ ts, u.id ≠ id := fun u hu => h u (List.mem_cons_of_mem t hu)
    simp [flipFirst, ht, ih hts]

theorem flipFirst_append (id : Int) (pre post : List Todo) (t : Todo)
    (hpre : ∀ u ∈ pre, u.id ≠ id) (ht : t.id = id) :
    flipFirst id (pre ++ t :: post) = pre ++ { t with completed := !t.completed } :: post := by
  induction pre with
  | nil => simp [flipFirst, ht]
  | cons u us ih =>
    have hu : u.id ≠ id := hpre u (List.mem_cons_self u us)
    have hus : ∀ v ∈ us, v.id ≠ id := fun v hv => hpre v (List.mem_cons_of_mem u hv)
    simp [flipFirst, hu, ih hus]

theorem flipFirst_flipFirst (id : Int) (L : List Todo) :
    flipFirst id (flipFirst id L) = L := by
  induction L with
  | nil => rfl
  | cons t ts ih =>
    by_cases ht : t.id = id
    · subst ht
      simp [flipFirst]
    · simp [flipFirst, ht, ih]

theorem find_flipFirst_isSome (id : Int) (L : List Todo) :
    ((flipFirst id L).find? (fun todo => todo.id == id)).isSome
      = (L.find? (fun todo => todo.id == id)).isSome := by
  induction L with
  | nil => rfl
  | cons t ts ih =>
    by_cases ht : t.id = id
    · simp [flipFirst, ht]
    · simp [flipFirst, ht, ih]

theorem find_eq_none_of_not_mem (id : Int) (L : List Todo) (h : ∀ t ∈ L, t.id ≠ id) :
    L.find? (fun todo => todo.id == id) = none := by
  simp only [List.find?_eq_none]
  intro t ht
  simpa using h t ht

theorem toggleTodo_todos (id : Int) (s : State) :
    (toggleTodo id s).todos = flipFirst id s.todos := by
  unfold toggleTodo
  cases hfind : s.todos.find? (fun todo => todo.id == id) with
  | some t => rfl
  | none =>
    have h : ∀ t ∈ s.todos, t.id ≠ id := by
      intro t ht
      have := List.find?_eq_none.mp hfind t ht
      simpa using this
    simp [flipFirst_eq_self_of_not_mem id s.todos h]

end TodoList

/-! ## Adding a task -/

/-- C1: when the trimmed input is not empty, `addTodo` of either variant puts
one new task in front of the stored sequence: its text is the trimmed input,
`completed` is false, id and `createdAt` are the clock readings; the length
grows by one and the old tasks follow unchanged, in their old order. -/
theorem addTodo_prepends_new_task (now : Int) (iso : String)
    (m : Task2.State) (c : TodoList.State)
    (hm : jsTrim m.inputValue ≠ "") (hc : jsTrim c.inputValue ≠ "") :
    ((Task2.addTodo now iso m).todos
        = { id := now, text := jsTrim m.inputValue, completed := false, createdAt := iso }
            :: m.todos
      ∧ (Task2.addTodo now iso m).todos.length = m.todos.length + 1)
    ∧ ((TodoList.addTodo now iso c).todos
        = { id := now, text := jsTrim c.inputValue, completed := false, createdAt := iso }
            :: c.todos
      ∧ (TodoList.addTodo now iso c).todos.length = c.todos.length + 1) := by
  have e1 : (Task2.addTodo now iso m).todos
      = { id := now, text := jsTrim m.inputValue, completed := false, createdAt := iso }
          :: m.todos := by
    simp [Task2.addTodo, Task2.saveTodos, hm]
  have e2 : (TodoList.addTodo now iso c).todos
      = { id := now, text := jsTrim c.inputValue, completed := false, createdAt := iso }
          :: c.todos := by
    simp [TodoList.addTodo, TodoList.saveToStorage, TodoList.render, hc]
  refine ⟨⟨e1, ?_⟩, ⟨e2, ?_⟩⟩
  · rw [e1]; rfl
  · rw [e2]; rfl

theorem addTodo_prepends_new_task_witness :
    ((Task2.addTodo 1700000000000 "2023-11-14T22:13:20.000Z"
          { todos := [⟨7, "Buy milk", true, "2023-11-14T22:00:00.000Z"⟩], todoFilter := "all",
            stored := none, inputValue := "  Walk dog \n" }).todos
        = [⟨1700000000000, "Walk dog", false, "2023-11-14T22:13:20.000Z"⟩,
           ⟨7, "Buy milk", true, "2023-11-14T22:00:00.000Z"⟩])
    ∧ ((TodoList.addTodo 1700000000000 "2023-11-14T22:13:20.000Z"
          { todos := [⟨7, "Buy milk", true, "2023-11-14T22:00:00.000Z"⟩], currentFilter := "all",
            stored := none, inputValue := "\tWalk dog", rendered := [7], timers := [] }).todos
        = [⟨1700000000000, "Walk dog", false, "2023-11-14T22:13:20.000Z"⟩,
           ⟨7, "Buy milk", true, "2023-11-14T22:00:00.000Z"⟩]) :=
  have h := addTodo_prepends_new_task 1700000000000 "2023-11-14T22:13:20.000Z"
    { todos := [⟨7, "Buy milk", true, "2023-11-14T22:00:00.000Z"⟩], todoFilter := "all",
      stored := none, inputValue := "  Walk dog \n" }
    { todos := [⟨7, "Buy milk", true, "2023-11-14T22:00:00.000Z"⟩], currentFilter := "all",
      stored := none, inputValue := "\tWalk dog", rendered := [7], timers := [] }
    (by decide) (by decide)
  ⟨h.1.1, h.2.1⟩

/-- C2: when the input is empty or holds only characters that `trim` removes,
`addTodo` of either variant returns the state it was given: the sequence, the
stored item and everything else are unchanged, and nothing is thrown. -/
theorem addTodo_blank_input_unchanged (now : Int) (iso : String)
    (m : Task2.State) (c : TodoList.State)
    (hm : ∀ ch ∈ m.inputValue.data, isTrimChar ch = true)
    (hc : ∀ ch ∈ c.inputValue.data, isTrimChar ch = true) :
    Task2.addTodo now iso m = m ∧ TodoList.addTodo now iso c = c := by
  constructor
  · simp [Task2.addTodo, jsTrim_eq_empty_of_all m.inputValue hm]
  · simp [TodoList.addTodo, jsTrim_eq_empty_of_all c.inputValue hc]

theorem addTodo_blank_input_unchanged_witness :
    Task2.addTodo 1700000000000 "2023-11-14T22:13:20.000Z"
        { todos := [⟨7, "Buy milk", true, "2023-11-14T22:00:00.000Z"⟩], todoFilter := "all",
          stored := some "[]", inputValue := "   " }
      = { todos := [⟨7, "Buy milk", true, "2023-11-14T22:00:00.000Z"⟩], todoFilter := "all",
          stored := some "[]", inputValue := "   " }
    ∧ TodoList.addTodo 1700000000000 "2023-11-14T22:13:20.000Z"
        { todos := [⟨7, "Buy milk", true, "2023-11-14T22:00:00.000Z"⟩], currentFilter := "all",
          stored := none, inputValue := "", rendered := [7], timers := [] }
      = { todos := [⟨7, "Buy milk", true, "2023-11-14T22:00:00.000Z"⟩], currentFilter := "all",
          stored := none, inputValue := "", rendered := [7], timers := [] } :=
  addTodo_blank_input_unchanged 1700000000000 "2023-11-14T22:13:20.000Z"
    { todos := [⟨7, "Buy milk", true, "2023-11-14T22:00:00.000Z"⟩], todoFilter := "all",
      stored := some "[]", inputValue := "   " }
    { todos := [⟨7, "Buy milk", true, "2023-11-14T22:00:00.000Z"⟩], currentFilter := "all",
      stored := none, inputValue := "", rendered := [7], timers := [] }
    (by decide) (by decide)

/-! ## Toggling a task -/

/-- C3: let the sequence be `pre ++ t :: post`, where `t` is the first task
with the given id.  One `toggleTodo(id)` keeps `pre` and puts `t` with
`completed` negated at the position of `t` (the module-level variant maps the
same flip over `post`, the class variant keeps `post`); a second
`toggleTodo(id)` gives back the sequence one started from, in both variants. -/
theorem toggleTodo_flips_and_is_involutive (id : Int) (pre post : List Todo) (t : Todo)
    (m : Task2.State) (c : TodoList.State)
    (hpre : ∀ u ∈ pre, u.id ≠ id) (ht : t.id = id)
    (hm : m.todos = pre ++ t :: post) (hc : c.todos = pre ++ t :: post) :
    ((Task2.toggleTodo id m).todos
        = pre ++ { t with completed := !t.completed }
            :: post.map (fun todo =>
                if todo.id = id then { todo with completed := !todo.completed } else todo)
      ∧ (Task2.toggleTodo id (Task2.toggleTodo id m)).todos = m.todos)
    ∧ ((TodoList.toggleTodo id c).todos = pre ++ { t with completed := !t.completed } :: post
      ∧ (TodoList.toggleTodo id (TodoList.toggleTodo id c)).todos = c.todos) := by
  refine ⟨⟨?_, ?_⟩, ⟨?_, ?_⟩⟩
  · simp only [Task2.toggleTodo, Task2.saveTodos, hm, List.map_append, List.map_cons]
    rw [map_flip_eq_self_of_not_mem id pre hpre]
    simp [ht]
  · simp only [Task2.toggleTodo, Task2.saveTodos]
    exact map_flip_map_flip id m.todos
  · rw [TodoList.toggleTodo_todos, hc]
    exact TodoList.flipFirst_append id pre post t hpre ht
  · rw [TodoList.toggleTodo_todos, TodoList.toggleTodo_todos]
    exact TodoList.flipFirst_flipFirst id c.todos

theorem toggleTodo_flips_and_is_involutive_witness :
    ((Task2.toggleTodo 2
          { todos := [⟨3, "c", false, "t3"⟩, ⟨2, "b", false, "t2"⟩, ⟨1, "a", true, "t1"⟩],
            todoFilter := "all", stored := none, inputValue := "" }).todos
        = [⟨3, "c", false, "t3"⟩, ⟨2, "b", true, "t2"⟩, ⟨1, "a", true, "t1"⟩])
    ∧ ((TodoList.toggleTodo 2
          { todos := [⟨3, "c", false, "t3"⟩, ⟨2, "b", false, "t2"⟩, ⟨1, "a", true, "t1"⟩],
            currentFilter := "all", stored := none, inputValue := "", rendered := [3, 2, 1],
            timers := [] }).todos
        = [⟨3, "c", false, "t3"⟩, ⟨2, "b", true, "t2"⟩, ⟨1, "a", true, "t1"⟩]) :=
  have h := toggleTodo_flips_and_is_involutive 2 [⟨3, "c", false, "t3"⟩] [⟨1, "a", true, "t1"⟩]
    ⟨2, "b", false, "t2"⟩
    { todos := [⟨3, "c", false, "t3"⟩, ⟨2, "b", false, "t2"⟩, ⟨1, "a", true, "t1"⟩],
      todoFilter := "all", stored := none, inputValue := "" }
    { todos := [⟨3, "c", false, "t3"⟩, ⟨2, "b", false, "t2"⟩, ⟨1, "a", true, "t1"⟩],
      currentFilter := "all", stored := none, inputValue := "", rendered := [3, 2, 1],
      timers := [] }
    (by decide) rfl rfl rfl
  ⟨h.1.1, h.2.1⟩

/-- C4: when no task of the sequence has the given id, `toggleTodo(id)` leaves
the sequence as it is (same tasks, same fields, same order) in the module-level
variant, and returns the whole state unchanged in the class variant; nothing is
thrown. -/
theorem toggleTodo_unknown_id_unchanged (id : Int) (m : Task2.State) (c : TodoList.State)
    (hm : ∀ t ∈ m.todos, t.id ≠ id) (hc : ∀ t ∈ c.todos, t.id ≠ id) :
    (Task2.toggleTodo id m).todos = m.todos ∧ TodoList.toggleTodo id c = c := by
  constructor
  · simp only [Task2.toggleTodo, Task2.saveTodos]
    exact map_flip_eq_self_of_not_mem id m.todos hm
  · unfold TodoList.toggleTodo
    rw [TodoList.find_eq_none_of_not_mem id c.todos hc]

theorem toggleTodo_unknown_id_unchanged_witness :
    (Task2.toggleTodo 9
          { todos := [⟨3, "c", false, "t3"⟩, ⟨1, "a", true, "t1"⟩],
            todoFilter := "all", stored := none, inputValue := "" }).todos
        = [⟨3, "c", false, "t3"⟩, ⟨1, "a", true, "t1"⟩]
    ∧ TodoList.toggleTodo 9
          { todos := [⟨3, "c", false, "t3"⟩, ⟨1, "a", true, "t1"⟩],
            currentFilter := "all", stored := none, inputValue := "", rendered := [3, 1],
            timers := [] }
        = { todos := [⟨3, "c", false, "t3"⟩, ⟨1, "a", true, "t1"⟩],
            currentFilter := "all", stored := none, inputValue := "", rendered := [3, 1],
            timers := [] } :=
  toggleTodo_unknown_id_unchanged 9
    { todos := [⟨3, "c", false, "t3"⟩, ⟨1, "a", true, "t1"⟩],
      todoFilter := "all", stored := none, inputValue := "" }
    { todos := [⟨3, "c", false, "t3"⟩, ⟨1, "a", true, "t1"⟩],
      currentFilter := "all", stored := none, inputValue := "", rendered := [3, 1],
      timers := [] }
    (by decide) (by decide)

/-! ## Removing tasks -/

/-- C5: on a sequence with pairwise distinct ids, the removal
`todos.filter(todo => todo.id !== id)`, which `deleteTodo` of the module-level
variant and the timer callback of `deleteTodo` in the class variant both run,
takes out exactly the task with that id: if the sequence is `pre ++ t :: post`
with `t.id = id`, the result is `pre ++ post`, one shorter; and if no task has
that id, the sequence is unchanged. -/
theorem deleteTodo_removes_exactly_one (id : Int) (m : Task2.State) (c : TodoList.State)
    (hm : (m.todos.map (fun todo => todo.id)).Nodup)
    (hc : (c.todos.map (fun todo => todo.id)).Nodup) :
    (∀ pre t post, m.todos = pre ++ t :: post → t.id = id →
        (Task2.deleteTodo id m).todos = pre ++ post
        ∧ (Task2.deleteTodo id m).todos.length + 1 = m.todos.length)
    ∧ ((∀ t ∈ m.todos, t.id ≠ id) → (Task2.deleteTodo id m).todos = m.todos)
    ∧ (∀ pre t post, c.todos = pre ++ t :: post → t.id = id →
        (TodoList.fire (TodoList.Timer.removeTodo id) c).todos = pre ++ post
        ∧ (TodoList.fire (TodoList.Timer.removeTodo id) c).todos.length + 1 = c.todos.length)
    ∧ ((∀ t ∈ c.todos, t.id ≠ id) →
        (TodoList.fire (TodoList.Timer.removeTodo id) c).todos = c.todos) := by
  have key : ∀ (L pre post : List Todo) (t : Todo), (L.map (fun todo => todo.id)).Nodup →
      L = pre ++ t :: post → t.id = id → removeById id L = pre ++ post := by
    intro L pre post t hnd hL ht
    subst hL
    rw [List.map_append, List.map_cons, List.nodup_append] at hnd
    obtain ⟨_, hpost, hdisj⟩ := hnd
    have hpre : ∀ u ∈ pre, u.id ≠ id := by
      intro u hu hid
      have h1 : u.id ∈ pre.map (fun todo => todo.id) := List.mem_map_of_mem _ hu
      have h2 : u.id ∈ (t :: post).map (fun todo => todo.id) := by
        rw [hid, ← ht]; exact List.mem_map_of_mem _ (List.mem_cons_self t post)
      exact hdisj h1 h2
    have hpost1 : ∀ u ∈ post, u.id ≠ id := by
      intro u hu hid
      rw [List.nodup_cons] at hpost
      apply hpost.1
      rw [ht, ← hid]
      exact List.mem_map_of_mem _ hu
    have hsplit : pre ++ t :: post = pre ++ ([t] ++ post) := rfl
    rw [hsplit, removeById_append, removeById_append, removeById_eq_self_of_not_mem id pre hpre,
      removeById_eq_self_of_not_mem id post hpost1]
    simp [removeById, ht]
  have hlen : ∀ (L pre post : List Todo) (t : Todo), L = pre ++ t :: post →
      (pre ++ post).length + 1 = L.length := by
    intro L pre post t hL
    subst hL
    simp only [List.length_append, List.length_cons]
    omega
  refine ⟨?_, ?_, ?_, ?_⟩
  · intro pre t post hL ht
    have e : (Task2.deleteTodo id m).todos = pre ++ post := key m.todos pre post t hm hL ht
    exact ⟨e, by rw [e]; exact hlen m.todos pre post t hL⟩
  · intro h
    exact removeById_eq_self_of_not_mem id m.todos h
  · intro pre t post hL ht
    have e : (TodoList.fire (TodoList.Timer.removeTodo id) c).todos = pre ++ post :=
      key c.todos pre post t hc hL ht
    exact ⟨e, by rw [e]; exact hlen c.todos pre post t hL⟩
  · intro h
    exact removeById_eq_self_of_not_mem id c.todos h

theorem deleteTodo_removes_exactly_one_witness :
    (Task2.deleteTodo 2
          { todos := [⟨3, "c", false, "t3"⟩, ⟨2, "b", false, "t2"⟩, ⟨1, "a", true, "t1"⟩],
            todoFilter := "all", stored := none, inputValue := "" }).todos
        = [⟨3, "c", false, "t3"⟩] ++ [⟨1, "a", true, "t1"⟩]
    ∧ (TodoList.fire (TodoList.Timer.removeTodo 2)
          { todos := [⟨3, "c", false, "t3"⟩, ⟨2, "b", false, "t2"⟩, ⟨1, "a", true, "t1"⟩],
            currentFilter := "all", stored := none, inputValue := "", rendered := [3, 2, 1],
            timers := [] }).todos
        = [⟨3, "c", false, "t3"⟩] ++ [⟨1, "a", true, "t1"⟩] :=
  have h := deleteTodo_removes_exactly_one 2
    { todos := [⟨3, "c", false, "t3"⟩, ⟨2, "b", false, "t2"⟩, ⟨1, "a", true, "t1"⟩],
      todoFilter := "all", stored := none, inputValue := "" }
    { todos := [⟨3, "c", false, "t3"⟩, ⟨2, "b", false, "t2"⟩, ⟨1, "a", true, "t1"⟩],
      currentFilter := "all", stored := none, inputValue := "", rendered := [3, 2, 1],
      timers := [] }
    (by decide) (by decide)
  ⟨(h.1 [⟨3, "c", false, "t3"⟩] ⟨2, "b", false, "t2"⟩ [⟨1, "a", true, "t1"⟩] rfl rfl).1,
   (h.2.2.1 [⟨3, "c", false, "t3"⟩] ⟨2, "b", false, "t2"⟩ [⟨1, "a", true, "t1"⟩] rfl rfl).1⟩

theorem activeTodos_eq_filter (L : List Todo) :
    activeTodos L = L.filter (fun t => decide (t.completed = false)) := by
  unfold activeTodos
  congr 1
  funext t
  cases t.completed <;> rfl

theorem completedTodos_eq_filter (L : List Todo) :
    completedTodos L = L.filter (fun t => decide (t.completed = true)) := by
  unfold completedTodos
  congr 1
  funext t
  cases t.completed <;> rfl

theorem activeTodos_eq_self_of_all_active (L : List Todo) (h : ∀ t ∈ L, t.completed = false) :
    activeTodos L = L := by
  unfold activeTodos
  apply List.filter_eq_self.mpr
  intro t ht
  simp [h t ht]

theorem completedTodos_eq_nil_of_all_active (L : List Todo) (h : ∀ t ∈ L, t.completed = false) :
    completedTodos L = [] := by
  unfold completedTodos
  apply List.filter_eq_nil_iff.mpr
  intro t ht
  simp [h t ht]

theorem activeTodos_eq_self_of_completedTodos_eq_nil (L : List Todo)
    (h : completedTodos L = []) : activeTodos L = L := by
  apply activeTodos_eq_self_of_all_active
  intro t ht
  have h1 := List.filter_eq_nil_iff.mp h t ht
  simpa using h1

/-- C6: `clearCompleted` yields exactly the tasks with `completed = false`, a
sublist of the old sequence (same relative order), and leaves a sequence
without completed tasks as it is.  The module-level variant does so at once;
the class variant, idle before the call, does so when the timer it starts
has expired, and returns the unchanged state when no task is completed. -/
theorem clearCompleted_keeps_exactly_active (m : Task2.State) (c : TodoList.State)
    (hc : c.timers = []) :
    ((Task2.clearCompleted m).todos = m.todos.filter (fun t => decide (t.completed = false))
      ∧ (Task2.clearCompleted m).todos.Sublist m.todos
      ∧ ((∀ t ∈ m.todos, t.completed = false) → (Task2.clearCompleted m).todos = m.todos))
    ∧ ((TodoList.settle (TodoList.clearCompleted c)).todos
          = c.todos.filter (fun t => decide (t.completed = false))
      ∧ (TodoList.settle (TodoList.clearCompleted c)).todos.Sublist c.todos
      ∧ ((∀ t ∈ c.todos, t.completed = false) → TodoList.clearCompleted c = c)) := by
  have e1 : (Task2.clearCompleted m).todos = activeTodos m.todos := rfl
  have e2 : (TodoList.settle (TodoList.clearCompleted c)).todos = activeTodos c.todos := by
    unfold TodoList.clearCompleted
    by_cases h0 : (completedTodos c.todos).length = 0
    · rw [if_pos h0]
      have hnil : completedTodos c.todos = [] := List.length_eq_zero.mp h0
      rw [activeTodos_eq_self_of_completedTodos_eq_nil c.todos hnil]
      simp [TodoList.settle, hc]
    · rw [if_neg h0]
      simp [TodoList.settle, hc, TodoList.fire, TodoList.render, TodoList.saveToStorage]
  refine ⟨⟨?_, ?_, ?_⟩, ⟨?_, ?_, ?_⟩⟩
  · rw [e1]; exact activeTodos_eq_filter m.todos
  · rw [e1]; exact List.filter_sublist m.todos
  · intro h
    rw [e1]; exact activeTodos_eq_self_of_all_active m.todos h
  · rw [e2]; exact activeTodos_eq_filter c.todos
  · rw [e2]; exact List.filter_sublist c.todos
  · intro h
    unfold TodoList.clearCompleted
    rw [completedTodos_eq_nil_of_all_active c.todos h]
    rfl

theorem clearCompleted_keeps_exactly_active_witness :
    (TodoList.settle (TodoList.clearCompleted
          { todos := [⟨3, "c", true, "t3"⟩, ⟨2, "b", false, "t2"⟩, ⟨1, "a", true, "t1"⟩],
            currentFilter := "all", stored := none, inputValue := "", rendered := [3, 2, 1],
            timers := [] })).todos
      = [⟨2, "b", false, "t2"⟩] :=
  (clearCompleted_keeps_exactly_active
    { todos := [⟨3, "c", true, "t3"⟩], todoFilter := "all", stored := none, inputValue := "" }
    { todos := [⟨3, "c", true, "t3"⟩, ⟨2, "b", false, "t2"⟩, ⟨1, "a", true, "t1"⟩],
      currentFilter := "all", stored := none, inputValue := "", rendered := [3, 2, 1],
      timers := [] }
    rfl).2.1

/-! ## The filtered view -/

/-- C7: `getFilteredTodos` of either variant returns, under the filter
`'active'`, exactly the tasks with `completed = false`; under `'completed'`,
exactly the tasks with `completed = true`; both are sublists of the sequence
(same relative order); under `'all'` it returns the whole sequence. -/
theorem getFilteredTodos_by_filter (m : Task2.State) (c : TodoList.State) :
    (Task2.getFilteredTodos { m with todoFilter := "active" }
        = m.todos.filter (fun t => decide (t.completed = false))
      ∧ Task2.getFilteredTodos { m with todoFilter := "completed" }
        = m.todos.filter (fun t => decide (t.completed = true))
      ∧ Task2.getFilteredTodos { m with todoFilter := "all" } = m.todos
      ∧ (Task2.getFilteredTodos { m with todoFilter := "active" }).Sublist m.todos
      ∧ (Task2.getFilteredTodos { m with todoFilter := "completed" }).Sublist m.todos)
    ∧ (TodoList.getFilteredTodos { c with currentFilter := "active" }
        = c.todos.filter (fun t => decide (t.completed = false))
      ∧ TodoList.getFilteredTodos { c with currentFilter := "completed" }
        = c.todos.filter (fun t => decide (t.completed = true))
      ∧ TodoList.getFilteredTodos { c with currentFilter := "all" } = c.todos
      ∧ (TodoList.getFilteredTodos { c with currentFilter := "active" }).Sublist c.todos
      ∧ (TodoList.getFilteredTodos { c with currentFilter := "completed" }).Sublist c.todos) := by
  have ha : ∀ L : List Todo, filterTodos "active" L = activeTodos L := fun L => rfl
  have hd : ∀ L : List Todo, filterTodos "completed" L = completedTodos L := fun L => rfl
  have hall : ∀ L : List Todo, filterTodos "all" L = L := fun L => rfl
  simp only [Task2.getFilteredTodos, TodoList.getFilteredTodos, ha, hd, hall]
  refine ⟨⟨activeTodos_eq_filter _, completedTodos_eq_filter _, trivial, ?_, ?_⟩,
    ⟨activeTodos_eq_filter _, completedTodos_eq_filter _, trivial, ?_, ?_⟩⟩
  · exact List.filter_sublist m.todos
  · exact List.filter_sublist m.todos
  · exact List.filter_sublist c.todos
  · exact List.filter_sublist c.todos

/-! ## `JSON.parse` reads back what `JSON.stringify` wrote -/

namespace JSON

theorem decodeItems_unit_small (n : Nat) (rest : List StrItem) (h : n < 32) :
    decodeItems (StrItem.unit n :: rest) = Char.ofNat n :: decodeItems rest := by
  have h1 : ¬ (0xD800 ≤ n ∧ n ≤ 0xDBFF) := by omega
  have h2 : ¬ (0xDC00 ≤ n ∧ n ≤ 0xDFFF) := by omega
  cases rest with
  | nil => simp [decodeItems, h1, h2]
  | cons x xs => cases x <;> simp [decodeItems, h1, h2]

theorem isDigit_digitChar (d : Nat) (h : d < 10) : isDigit (digitChar d) = true := by
  interval_cases d <;> decide

theorem digitVal_digitChar (d : Nat) (h : d < 10) : digitVal (digitChar d) = d := by
  interval_cases d <;> decide

theorem hexVal_hexChar (d : Nat) (h : d < 16) : hexVal (hexChar d) = some d := by
  interval_cases d <;> decide

theorem isDigit_false_of_eq_comma : isDigit ',' = false := by decide

theorem digitChar_ne_zero (d : Nat) (h : d < 10) (hpos : 0 < d) : digitChar d ≠ '0' := by
  interval_cases d <;> decide

theorem readDigits_cons_digit (d : Nat) (h : d < 10) (rest : List Char) (a k : Nat) :
    readDigits (digitChar d :: rest) a k = readDigits rest (a * 10 + d) (k + 1) := by
  simp [readDigits, isDigit_digitChar d h, digitVal_digitChar d h]

theorem natDigitsCore_spec : ∀ (fuel n : Nat) (acc : List Char), n < fuel →
    ∃ ds : List Char, natDigitsCore fuel n acc = ds ++ acc
      ∧ (∀ a k rest, readDigits (ds ++ rest) a k
          = readDigits rest (a * 10 ^ ds.length + n) (k + ds.length))
      ∧ (∃ c cs, ds = c :: cs ∧ isDigit c = true ∧ (0 < n → c ≠ '0') ∧ (n = 0 → cs = [])) := by
  intro fuel
  induction fuel with
  | zero => intro n acc h; omega
  | succ f ih =>
    intro n acc hn
    by_cases h0 : n / 10 = 0
    · have hlt : n < 10 := by omega
      have hmod : n % 10 = n := by omega
      refine ⟨[digitChar n], ?_, ?_, ?_⟩
      · simp [natDigitsCore, h0, hmod]
      · intro a k rest
        simp [readDigits_cons_digit n hlt]
      · refine ⟨digitChar n, [], rfl, isDigit_digitChar n hlt, ?_, fun _ => rfl⟩
        intro hpos
        exact digitChar_ne_zero n hlt hpos
    · obtain ⟨ds, hds, hread, c, cs, hcs, hc, hcz, _⟩ :=
        ih (n / 10) (digitChar (n % 10) :: acc) (by omega)
      have hmod : n % 10 < 10 := by omega
      refine ⟨ds ++ [digitChar (n % 10)], ?_, ?_, ?_⟩
      · simp [natDigitsCore, h0, hds]
      · intro a k rest
        rw [List.append_assoc, hread, List.singleton_append,
          readDigits_cons_digit (n % 10) hmod]
        have e1 : (a * 10 ^ ds.length + n / 10) * 10 + n % 10
            = a * 10 ^ (ds ++ [digitChar (n % 10)]).length + n := by
          rw [List.length_append, List.length_singleton, pow_succ]
          have : (a * 10 ^ ds.length + n / 10) * 10 = a * (10 ^ ds.length * 10) + n / 10 * 10 := by
            ring
          omega
        have e2 : k + ds.length + 1 = k + (ds ++ [digitChar (n % 10)]).length := by
          rw [List.length_append, List.length_singleton]; omega
        rw [e1, e2]
      · refine ⟨c, cs ++ [digitChar (n % 10)], by simp [hcs], hc, ?_, ?_⟩
        · intro _
          exact hcz (by omega)
        · intro hz
          omega


theorem natDigits_spec (n : Nat) :
    (∀ a k rest, readDigits (natDigits n ++ rest) a k
        = readDigits rest (a * 10 ^ (natDigits n).length + n) (k + (natDigits n).length))
    ∧ (∃ c cs, natDigits n = c :: cs ∧ isDigit c = true ∧ (0 < n → c ≠ '0')) := by
  obtain ⟨ds, hds, hread, c, cs, hcs, hc, hcz, _⟩ := natDigitsCore_spec (n + 1) n [] (by omega)
  have e : natDigits n = ds := by simp [natDigits, hds]
  rw [e]
  exact ⟨hread, c, cs, hcs, hc, hcz⟩

theorem readDigits_comma (rest : List Char) (a k : Nat) :
    readDigits (',' :: rest) a k = (a, k, ',' :: rest) := by
  have h : isDigit ',' = false := by decide
  simp [readDigits, h]

theorem readInt_natDigits (n : Nat) (rest : List Char) :
    readInt (natDigits n ++ ',' :: rest) = .ok (n, ',' :: rest) := by
  by_cases h0 : n = 0
  · subst h0
    have e : natDigits 0 = ['0'] := by decide
    simp [e, readInt]
  · obtain ⟨hread, c, cs, hcs, hc, hcz⟩ := natDigits_spec n
    have hne : c ≠ '0' := hcz (by omega)
    have e1 : natDigits n ++ ',' :: rest = c :: (cs ++ ',' :: rest) := by simp [hcs]
    have e2 : readDigits (c :: (cs ++ ',' :: rest)) 0 0 = (n, (natDigits n).length, ',' :: rest) := by
      rw [← e1, hread, readDigits_comma]
      simp
    rw [e1]
    simp only [readInt, hne, if_false, hc, if_true, e2]

theorem readUnsigned_natDigits (n : Nat) (rest : List Char) :
    readUnsigned (natDigits n ++ ',' :: rest) = .ok ((n : ℚ), ',' :: rest) := by
  have h1 : (',' : Char) ≠ '.' := by decide
  have h2 : ¬ ((',' : Char) = 'e' ∨ (',' : Char) = 'E') := by decide
  simp only [readUnsigned, readInt_natDigits, readFrac, h1, if_false, readExp, h2]

theorem ne_minus_of_isDigit (c : Char) (h : isDigit c = true) : c ≠ '-' := by
  intro hc
  subst hc
  exact absurd h (by decide)

theorem parseNumber_intChars (i : Int) (rest : List Char) :
    parseNumber (intChars i ++ ',' :: rest) = .ok ((i : ℚ), ',' :: rest) := by
  cases i with
  | ofNat n =>
    obtain ⟨_, c, cs, hcs, hc, _⟩ := natDigits_spec n
    have hne : c ≠ '-' := ne_minus_of_isDigit c hc
    have e1 : intChars (Int.ofNat n) ++ ',' :: rest = c :: (cs ++ ',' :: rest) := by
      simp [intChars, hcs]
    have e2 : c :: (cs ++ ',' :: rest) = natDigits n ++ ',' :: rest := by simp [hcs]
    rw [e1]
    simp only [parseNumber, hne, if_false]
    rw [e2, readUnsigned_natDigits]
    simp
  | negSucc n =>
    have e1 : intChars (Int.negSucc n) ++ ',' :: rest
        = '-' :: (natDigits (n + 1) ++ ',' :: rest) := by simp [intChars]
    rw [e1]
    simp only [parseNumber, if_true, readUnsigned_natDigits]
    simp [Int.cast_negSucc]

theorem intChars_head (i : Int) :
    ∃ c cs, intChars i = c :: cs ∧ (c = '-' ∨ isDigit c = true) := by
  cases i with
  | ofNat n =>
    obtain ⟨_, c, cs, hcs, hc, _⟩ := natDigits_spec n
    exact ⟨c, cs, by simp [intChars, hcs], Or.inr hc⟩
  | negSucc n => exact ⟨'-', natDigits (n + 1), rfl, Or.inl rfl⟩

theorem parseValue_intChars (fuel : Nat) (i : Int) (rest : List Char) :
    parseValue (fuel + 1) (intChars i ++ ',' :: rest) = .ok (Json.num (i : ℚ), ',' :: rest) := by
  obtain ⟨c, cs, hcs, hc⟩ := intChars_head i
  have e1 : intChars i ++ ',' :: rest = c :: (cs ++ ',' :: rest) := by simp [hcs]
  have h1 : c ≠ '{' := by
    rcases hc with h | h
    · rw [h]; decide
    · intro hc; subst hc; exact absurd h (by decide)
  have h2 : c ≠ '[' := by
    rcases hc with h | h
    · rw [h]; decide
    · intro hc; subst hc; exact absurd h (by decide)
  have h3 : c ≠ '"' := by
    rcases hc with h | h
    · rw [h]; decide
    · intro hc; subst hc; exact absurd h (by decide)
  have hp := parseNumber_intChars i rest
  rw [e1] at hp ⊢
  rw [parseValue]
  simp only [h1, h2, h3, if_false, hc, if_true, hp]


theorem parseStringBody_lit (fuel : Nat) (c : Char) (cs : List Char) (acc : List StrItem)
    (h1 : c ≠ '"') (h2 : c ≠ '\\') (h3 : ¬ c.toNat < 32) :
    parseStringBody (fuel + 1) (c :: cs) acc = parseStringBody fuel cs (StrItem.lit c :: acc) := by
  simp only [parseStringBody, h1, h2, h3, if_false]

theorem parseStringBody_escape (fuel : Nat) (e x : Char) (cs : List Char) (acc : List StrItem)
    (h1 : e ≠ 'u') (h2 : simpleEscape e = some x) :
    parseStringBody (fuel + 1) ('\\' :: e :: cs) acc
      = parseStringBody fuel cs (StrItem.lit x :: acc) := by
  have h0 : ('\\' : Char) ≠ '"' := by decide
  simp only [parseStringBody, h0, h1, h2, if_false, if_true]

theorem parseStringBody_hex (fuel n : Nat) (cs1 cs2 : List Char) (acc : List StrItem)
    (h : readHex4 cs1 = some (n, cs2)) :
    parseStringBody (fuel + 1) ('\\' :: 'u' :: cs1) acc
      = parseStringBody fuel cs2 (StrItem.unit n :: acc) := by
  have h0 : ('\\' : Char) ≠ '"' := by decide
  simp only [parseStringBody, h0, h, if_false, if_true]

theorem readHex4_small (n : Nat) (h : n < 32) (cs : List Char) :
    readHex4 ('0' :: '0' :: hexChar (n / 16) :: hexChar (n % 16) :: cs) = some (n, cs) := by
  have h0 : hexVal '0' = some 0 := by decide
  have h1 : hexVal (hexChar (n / 16)) = some (n / 16) := hexVal_hexChar _ (by omega)
  have h2 : hexVal (hexChar (n % 16)) = some (n % 16) := hexVal_hexChar _ (by omega)
  simp only [readHex4, h0, h1, h2]
  congr 2
  omega

theorem eq_ofNat_of_toNat_eq (c : Char) (n : Nat) (h : c.toNat = n) : c = Char.ofNat n := by
  rw [← h, Char.ofNat_toNat]

/-- What the parser reads back from the escape of one code point. -/
theorem parseStringBody_quoteChar (c : Char) :
    ∃ item : StrItem,
      (∀ fuel cs acc, parseStringBody (fuel + 1) (quoteChar c ++ cs) acc
          = parseStringBody fuel cs (item :: acc))
      ∧ (∀ X, decodeItems (item :: X) = c :: decodeItems X) := by
  unfold quoteChar
  by_cases q1 : c = '"'
  · refine ⟨StrItem.lit c, ?_, fun X => rfl⟩
    intro fuel cs acc
    subst q1
    exact parseStringBody_escape fuel '"' '"' cs acc (by decide) (by decide)
  by_cases q2 : c = '\\'
  · refine ⟨StrItem.lit c, ?_, fun X => rfl⟩
    intro fuel cs acc
    subst q2
    exact parseStringBody_escape fuel '\\' '\\' cs acc (by decide) (by decide)
  by_cases q3 : c.toNat = 8
  · refine ⟨StrItem.lit c, ?_, fun X => rfl⟩
    intro fuel cs acc
    have hc := eq_ofNat_of_toNat_eq c 8 q3
    subst hc
    exact parseStringBody_escape fuel 'b' _ cs acc (by decide) (by decide)
  by_cases q4 : c.toNat = 9
  · refine ⟨StrItem.lit c, ?_, fun X => rfl⟩
    intro fuel cs acc
    have hc := eq_ofNat_of_toNat_eq c 9 q4
    subst hc
    exact parseStringBody_escape fuel 't' _ cs acc (by decide) (by decide)
  by_cases q5 : c.toNat = 10
  · refine ⟨StrItem.lit c, ?_, fun X => rfl⟩
    intro fuel cs acc
    have hc := eq_ofNat_of_toNat_eq c 10 q5
    subst hc
    exact parseStringBody_escape fuel 'n' _ cs acc (by decide) (by decide)
  by_cases q6 : c.toNat = 12
  · refine ⟨StrItem.lit c, ?_, fun X => rfl⟩
    intro fuel cs acc
    have hc := eq_ofNat_of_toNat_eq c 12 q6
    subst hc
    exact parseStringBody_escape fuel 'f' _ cs acc (by decide) (by decide)
  by_cases q7 : c.toNat = 13
  · refine ⟨StrItem.lit c, ?_, fun X => rfl⟩
    intro fuel cs acc
    have hc := eq_ofNat_of_toNat_eq c 13 q7
    subst hc
    exact parseStringBody_escape fuel 'r' _ cs acc (by decide) (by decide)
  by_cases q8 : c.toNat < 32
  · refine ⟨StrItem.unit c.toNat, ?_, ?_⟩
    · intro fuel cs acc
      simp only [q1, q2, q3, q4, q5, q6, q7, q8, if_false, if_true]
      exact parseStringBody_hex fuel c.toNat _ cs acc (readHex4_small c.toNat q8 cs)
    · intro X
      rw [decodeItems_unit_small c.toNat X q8, Char.ofNat_toNat]
  · refine ⟨StrItem.lit c, ?_, fun X => rfl⟩
    intro fuel cs acc
    simp only [q1, q2, q3, q4, q5, q6, q7, q8, if_false]
    exact parseStringBody_lit fuel c cs acc q1 q2 q8


theorem parseStringBody_quoted : ∀ (s : List Char) (fuel : Nat) (acc : List StrItem)
    (pre rest : List Char), s.length < fuel →
    (∀ X, decodeItems (acc.reverse ++ X) = pre ++ decodeItems X) →
    parseStringBody fuel (s.flatMap quoteChar ++ '"' :: rest) acc = .ok (⟨pre ++ s⟩, rest) := by
  intro s
  induction s with
  | nil =>
    intro fuel acc pre rest hlen hacc
    obtain ⟨f, rfl⟩ : ∃ f, fuel = f + 1 := ⟨fuel - 1, by simp at hlen; omega⟩
    have h := hacc []
    simp only [List.append_nil, decodeItems] at h
    simp [parseStringBody, h]
  | cons c s ih =>
    intro fuel acc pre rest hlen hacc
    obtain ⟨f, rfl⟩ : ∃ f, fuel = f + 1 := ⟨fuel - 1, by simp at hlen; omega⟩
    obtain ⟨item, hstep, hdec⟩ := parseStringBody_quoteChar c
    have hacc1 : ∀ X, decodeItems ((item :: acc).reverse ++ X) = (pre ++ [c]) ++ decodeItems X := by
      intro X
      rw [List.reverse_cons, List.append_assoc, List.singleton_append, hacc, hdec]
      simp
    have hlen1 : s.length < f := by simp at hlen; omega
    have := ih f (item :: acc) (pre ++ [c]) rest hlen1 hacc1
    rw [List.flatMap_cons, List.append_assoc, hstep, this]
    simp

theorem length_le_length_flatMap_quoteChar (s : List Char) :
    s.length ≤ (s.flatMap quoteChar).length := by
  induction s with
  | nil => simp
  | cons c s ih =>
    have h1 : 1 ≤ (quoteChar c).length := by
      unfold quoteChar
      repeat' split
      all_goals simp
    rw [List.flatMap_cons, List.length_append, List.length_cons]
    omega

theorem parseString_quoted (s : String) (rest : List Char) :
    parseString (s.data.flatMap quoteChar ++ '"' :: rest) = .ok (s, rest) := by
  unfold parseString
  have hlen : s.data.length < (s.data.flatMap quoteChar ++ '"' :: rest).length + 1 := by
    have := length_le_length_flatMap_quoteChar s.data
    rw [List.length_append]
    omega
  have h := parseStringBody_quoted s.data _ [] [] rest hlen (fun X => rfl)
  rw [h]
  rfl

theorem quoteChars_append (s : String) (rest : List Char) :
    quoteChars s ++ rest = '"' :: (s.data.flatMap quoteChar ++ '"' :: rest) := by
  simp [quoteChars]

theorem parseValue_quoteChars (fuel : Nat) (s : String) (rest : List Char) :
    parseValue (fuel + 1) (quoteChars s ++ rest) = .ok (Json.str s, rest) := by
  have h1 : ('"' : Char) ≠ '{' := by decide
  have h2 : ('"' : Char) ≠ '[' := by decide
  rw [quoteChars_append, parseValue]
  simp only [h1, h2, if_false, if_true, parseString_quoted]

theorem parseValue_boolChars (fuel : Nat) (b : Bool) (rest : List Char) :
    parseValue (fuel + 1) (boolChars b ++ rest) = .ok (Json.bool b, rest) := by
  cases b
  · have e : boolChars false ++ rest = 'f' :: 'a' :: 'l' :: 's' :: 'e' :: rest := rfl
    rw [e, parseValue]
    simp [stripPrefix, isDigit]
  · have e : boolChars true ++ rest = 't' :: 'r' :: 'u' :: 'e' :: rest := rfl
    rw [e, parseValue]
    simp [stripPrefix, isDigit]


theorem skipWs_cons_of_not_isWs (c : Char) (cs : List Char) (h : isWs c = false) :
    skipWs (c :: cs) = c :: cs := by
  simp [skipWs, List.dropWhile, h]

theorem skipWs_quoteChars (s : String) (rest : List Char) :
    skipWs (quoteChars s ++ rest) = quoteChars s ++ rest := by
  rw [quoteChars_append]
  exact skipWs_cons_of_not_isWs _ _ (by decide)

theorem skipWs_boolChars (b : Bool) (rest : List Char) :
    skipWs (boolChars b ++ rest) = boolChars b ++ rest := by
  cases b
  · exact skipWs_cons_of_not_isWs 'f' _ (by decide)
  · exact skipWs_cons_of_not_isWs 't' _ (by decide)

theorem skipWs_intChars (i : Int) (rest : List Char) :
    skipWs (intChars i ++ rest) = intChars i ++ rest := by
  obtain ⟨c, cs, hcs, hc⟩ := intChars_head i
  have hws : isWs c = false := by
    rcases hc with h | h
    · rw [h]; decide
    · cases hw : isWs c with
      | false => rfl
      | true =>
        exfalso
        simp only [isWs, isDigit, Bool.or_eq_true, Bool.and_eq_true, decide_eq_true_eq] at hw h
        omega
  rw [hcs]
  exact skipWs_cons_of_not_isWs c _ hws

/-- One member that is not the last: after the key, the colon, the value and
the comma, the parser goes on with the next member. -/
theorem parseMembers_member (fuel : Nat) (key : String) (v : Json) (vtext more : List Char)
    (next : String) (acc : List (String × Json))
    (hv : parseValue fuel (skipWs (vtext ++ ',' :: (quoteChars next ++ more)))
      = .ok (v, ',' :: (quoteChars next ++ more))) :
    parseMembers (fuel + 1) (quoteChars key ++ ':' :: (vtext ++ ',' :: (quoteChars next ++ more))) acc
      = parseMembers fuel (quoteChars next ++ more) ((key, v) :: acc) := by
  have hc : isWs ':' = false := by decide
  have hk : isWs ',' = false := by decide
  rw [quoteChars_append, parseMembers]
  simp only [if_true, parseString_quoted, skipWs_cons_of_not_isWs ':' _ hc, hv,
    skipWs_cons_of_not_isWs ',' _ hk, skipWs_quoteChars]

/-- The last member: after the value comes the closing brace. -/
theorem parseMembers_last (fuel : Nat) (key : String) (v : Json) (vtext rest : List Char)
    (acc : List (String × Json))
    (hv : parseValue fuel (skipWs (vtext ++ '}' :: rest)) = .ok (v, '}' :: rest)) :
    parseMembers (fuel + 1) (quoteChars key ++ ':' :: (vtext ++ '}' :: rest)) acc
      = .ok (Json.obj ((key, v) :: acc).reverse, rest) := by
  have hc : isWs ':' = false := by decide
  have hk : isWs '}' = false := by decide
  have hne : ('}' : Char) ≠ ',' := by decide
  rw [quoteChars_append, parseMembers]
  simp only [if_true, parseString_quoted, skipWs_cons_of_not_isWs ':' _ hc, hv,
    skipWs_cons_of_not_isWs '}' _ hk, hne, if_false]

theorem todoChars_append (todo : Todo) (rest : List Char) :
    todoChars todo ++ rest
      = '{' :: (quoteChars "id" ++ ':' :: (intChars todo.id ++ ',' ::
          (quoteChars "text" ++ ':' :: (quoteChars todo.text ++ ',' ::
          (quoteChars "completed" ++ ':' :: (boolChars todo.completed ++ ',' ::
          (quoteChars "createdAt" ++ ':' :: (quoteChars todo.createdAt ++ '}' :: rest)))))))) := by
  have l1 : "\x7b\"id\":".data = '{' :: (quoteChars "id" ++ [':']) := by decide
  have l2 : ",\"text\":".data = ',' :: (quoteChars "text" ++ [':']) := by decide
  have l3 : ",\"completed\":".data = ',' :: (quoteChars "completed" ++ [':']) := by decide
  have l4 : ",\"createdAt\":".data = ',' :: (quoteChars "createdAt" ++ [':']) := by decide
  rw [todoChars, l1, l2, l3, l4]
  simp only [List.append_assoc, List.cons_append, List.nil_append]

theorem parseValue_todoChars (fuel : Nat) (todo : Todo) (rest : List Char) :
    parseValue (fuel + 6) (todoChars todo ++ rest) = .ok (todo.toJson, rest) := by
  have hq : ∀ s more, skipWs (quoteChars s ++ more) = quoteChars s ++ more := skipWs_quoteChars
  have hne : ('"' : Char) ≠ '}' := by decide
  rw [todoChars_append, parseValue]
  simp only [if_true]
  rw [hq, quoteChars_append]
  simp only [hne, if_false]
  rw [← quoteChars_append]
  rw [parseMembers_member (fuel + 4) "id" (Json.num (todo.id : ℚ)) (intChars todo.id) _ "text" []
    (by rw [skipWs_intChars]; exact parseValue_intChars (fuel + 3) todo.id _)]
  rw [parseMembers_member (fuel + 3) "text" (Json.str todo.text) (quoteChars todo.text) _
    "completed" _ (by rw [skipWs_quoteChars]; exact parseValue_quoteChars (fuel + 2) todo.text _)]
  rw [parseMembers_member (fuel + 2) "completed" (Json.bool todo.completed)
    (boolChars todo.completed) _ "createdAt" _
    (by rw [skipWs_boolChars]; exact parseValue_boolChars (fuel + 1) todo.completed _)]
  rw [parseMembers_last (fuel + 1) "createdAt" (Json.str todo.createdAt)
    (quoteChars todo.createdAt) rest _
    (by rw [skipWs_quoteChars]; exact parseValue_quoteChars fuel todo.createdAt _)]
  rfl


theorem skipWs_todoChars (todo : Todo) (rest : List Char) :
    skipWs (todoChars todo ++ rest) = todoChars todo ++ rest := by
  rw [todoChars_append]
  exact skipWs_cons_of_not_isWs _ _ (by decide)

theorem elementsChars_cons_cons (t u : Todo) (L : List Todo) :
    elementsChars (t :: u :: L) = todoChars t ++ ',' :: elementsChars (u :: L) := rfl

theorem skipWs_elementsChars (t : Todo) (L : List Todo) (rest : List Char) :
    skipWs (elementsChars (t :: L) ++ rest) = elementsChars (t :: L) ++ rest := by
  cases L with
  | nil => exact skipWs_todoChars t rest
  | cons u L =>
    rw [elementsChars_cons_cons, List.append_assoc]
    exact skipWs_todoChars t _

theorem parseElements_elementsChars : ∀ (L : List Todo) (t : Todo) (fuel : Nat)
    (acc : List Json) (rest : List Char), L.length + 7 ≤ fuel →
    parseElements fuel (elementsChars (t :: L) ++ ']' :: rest) acc
      = .ok (Json.arr (acc.reverse ++ (t :: L).map Todo.toJson), rest) := by
  intro L
  induction L with
  | nil =>
    intro t fuel acc rest hfuel
    obtain ⟨f, rfl⟩ : ∃ f, fuel = (f + 6) + 1 := ⟨fuel - 7, by simp at hfuel; omega⟩
    have hk : isWs ']' = false := by decide
    have hne : (']' : Char) ≠ ',' := by decide
    have e : elementsChars [t] = todoChars t := rfl
    rw [e, parseElements]
    simp only [parseValue_todoChars, skipWs_cons_of_not_isWs ']' _ hk, hne, if_false, if_true]
    simp
  | cons u L ih =>
    intro t fuel acc rest hfuel
    obtain ⟨f, rfl⟩ : ∃ f, fuel = (f + 6) + 1 := ⟨fuel - 7, by simp at hfuel; omega⟩
    have hk : isWs ',' = false := by decide
    have hfuel1 : L.length + 7 ≤ f + 6 := by simp at hfuel; omega
    rw [elementsChars_cons_cons, List.append_assoc, parseElements]
    simp only [parseValue_todoChars, List.cons_append, skipWs_cons_of_not_isWs ',' _ hk, if_true,
      skipWs_elementsChars]
    rw [ih u (f + 6) (t.toJson :: acc) rest hfuel1]
    simp

theorem length_todoChars (todo : Todo) : 6 ≤ (todoChars todo).length := by
  have h := todoChars_append todo []
  rw [List.append_nil] at h
  rw [h, quoteChars]
  simp only [List.length_cons, List.length_append]
  omega

theorem length_elementsChars (L : List Todo) : 6 * L.length ≤ (elementsChars L).length := by
  induction L with
  | nil => simp
  | cons t L ih =>
    cases L with
    | nil =>
      have := length_todoChars t
      simpa [elementsChars] using this
    | cons u L =>
      have := length_todoChars t
      rw [elementsChars_cons_cons, List.length_append, List.length_cons]
      simp only [List.length_cons] at ih ⊢
      omega

theorem elementsChars_head (t : Todo) (L : List Todo) (rest : List Char) :
    ∃ cs, elementsChars (t :: L) ++ rest = '{' :: cs := by
  cases L with
  | nil => exact ⟨_, todoChars_append t rest⟩
  | cons u L =>
    rw [elementsChars_cons_cons, List.append_assoc]
    exact ⟨_, todoChars_append t _⟩

/-- Parsing what `stringify` wrote gives back the array of task records. -/
theorem parse_stringify (todos : List Todo) :
    parse (stringify todos) = .ok (todosToJson todos) := by
  have hb : isWs '[' = false := by decide
  have h1 : ('[' : Char) ≠ '{' := by decide
  cases todos with
  | nil => rfl
  | cons t L =>
    have hlen : L.length + 7 ≤ ('[' :: (elementsChars (t :: L) ++ [']'])).length := by
      have := length_elementsChars (t :: L)
      simp only [List.length_cons, List.length_append, List.length_nil] at this ⊢
      omega
    obtain ⟨cs, hcs⟩ := elementsChars_head t L [']']
    have hb1 : isWs '{' = false := by decide
    have h2 : ('{' : Char) ≠ ']' := by decide
    have hp := parseElements_elementsChars L t _ [] [] hlen
    rw [hcs] at hp
    unfold parse stringify
    simp only []
    rw [skipWs_cons_of_not_isWs '[' _ hb, parseValue]
    simp only [h1, if_false, if_true]
    rw [hcs, skipWs_cons_of_not_isWs '{' cs hb1]
    simp only [h2, if_false]
    rw [hp]
    simp [skipWs, todosToJson]

end JSON

/-- C8: for every sequence of task records (id an integer, text and
`createdAt` strings, `completed` a boolean), `JSON.parse(JSON.stringify(todos))`
succeeds with an array of the same length whose element at each position has
the `id`, `text`, `completed` and `createdAt` of the task at that position. -/
theorem parse_stringify_round_trip (todos : List Todo) :
    ∃ values : List Json,
      JSON.parse (JSON.stringify todos) = .ok (Json.arr values)
      ∧ Json.arr values = todosToJson todos
      ∧ values.length = todos.length
      ∧ ∀ (i : Nat) (todo : Todo), todos[i]? = some todo →
          ∃ v, values[i]? = some v
            ∧ v.getProp "id" = some (Json.num (todo.id : ℚ))
            ∧ v.getProp "text" = some (Json.str todo.text)
            ∧ v.getProp "completed" = some (Json.bool todo.completed)
            ∧ v.getProp "createdAt" = some (Json.str todo.createdAt) := by
  refine ⟨todos.map Todo.toJson, JSON.parse_stringify todos, rfl, List.length_map _ _, ?_⟩
  intro i todo hi
  refine ⟨todo.toJson, ?_, rfl, rfl, rfl, rfl⟩
  rw [List.getElem?_map, hi]
  rfl

/-! ## Persist after mutate -/

namespace Task2

theorem loadTodos_stringify (todos : List Todo) :
    loadTodos (some (JSON.stringify todos)) = .ok (todosToJson todos) := by
  simp only [loadTodos, JSON.parse_stringify]
  rfl

theorem synced_saveTodos (s : State) : Synced (saveTodos s) :=
  loadTodos_stringify s.todos

end Task2

namespace TodoList

theorem stringify_ne_empty (todos : List Todo) : JSON.stringify todos ≠ "" := by
  intro h
  have hd := congrArg String.data h
  simp [JSON.stringify] at hd

theorem loadFromStorage_stringify (todos : List Todo) :
    loadFromStorage (some (JSON.stringify todos)) = todosToJson todos := by
  simp only [loadFromStorage, stringify_ne_empty, if_false, JSON.parse_stringify]

theorem synced_render_saveToStorage (s : State) : Synced (render (saveToStorage s)) :=
  loadFromStorage_stringify s.todos

theorem synced_fire (timer : Timer) (s : State) : Synced (fire timer s) := by
  cases timer with
  | removeTodo id => exact loadFromStorage_stringify _
  | removeCompleted => exact loadFromStorage_stringify _

theorem synced_foldl_fire (timers : List Timer) :
    ∀ s : State, Synced s → Synced (timers.foldl (fun st timer => fire timer st) s) := by
  induction timers with
  | nil => intro s hs; exact hs
  | cons timer rest ih =>
    intro s _
    exact ih (fire timer s) (synced_fire timer s)

end TodoList

/-- C9: persist after mutate.  From a state in which a reload gives the
in-memory sequence, every operation leads to such a state again: `addTodo`,
`toggleTodo`, `deleteTodo`, `editTodo` and `clearCompleted` of the module-level
variant; `addTodo`, `toggleTodo`, `deleteTodo`, `clearCompleted` of the class
variant and the expiry of the timers that the last two start. -/
theorem mutations_keep_store_synced (m : Task2.State) (c : TodoList.State)
    (hm : Task2.Synced m) (hc : TodoList.Synced c) :
    ((∀ now iso, Task2.Synced (Task2.addTodo now iso m))
      ∧ (∀ id, Task2.Synced (Task2.toggleTodo id m))
      ∧ (∀ id, Task2.Synced (Task2.deleteTodo id m))
      ∧ (∀ id newText, Task2.Synced (Task2.editTodo id newText m))
      ∧ Task2.Synced (Task2.clearCompleted m))
    ∧ ((∀ now iso, TodoList.Synced (TodoList.addTodo now iso c))
      ∧ (∀ id, TodoList.Synced (TodoList.toggleTodo id c))
      ∧ (∀ id, TodoList.Synced (TodoList.deleteTodo id c))
      ∧ TodoList.Synced (TodoList.clearCompleted c)
      ∧ (∀ timer, TodoList.Synced (TodoList.fire timer c))
      ∧ TodoList.Synced (TodoList.tick c)
      ∧ TodoList.Synced (TodoList.settle c)) := by
  refine ⟨⟨?_, ?_, ?_, ?_, ?_⟩, ⟨?_, ?_, ?_, ?_, ?_, ?_, ?_⟩⟩
  · intro now iso
    unfold Task2.addTodo
    by_cases h : jsTrim m.inputValue = ""
    · simpa [h] using hm
    · simp only [h, if_false]
      exact Task2.loadTodos_stringify _
  · intro id
    exact Task2.synced_saveTodos _
  · intro id
    exact Task2.synced_saveTodos _
  · intro id newText
    exact Task2.synced_saveTodos _
  · exact Task2.synced_saveTodos _
  · intro now iso
    unfold TodoList.addTodo
    by_cases h : jsTrim c.inputValue = ""
    · simpa [h] using hc
    · simp only [h, if_false]
      exact TodoList.loadFromStorage_stringify _
  · intro id
    unfold TodoList.toggleTodo
    cases c.todos.find? (fun todo => todo.id == id) with
    | none => exact hc
    | some t => exact TodoList.loadFromStorage_stringify _
  · intro id
    unfold TodoList.deleteTodo
    by_cases h : id ∈ c.rendered
    · simpa [h] using hc
    · simpa [h] using hc
  · unfold TodoList.clearCompleted
    by_cases h : (completedTodos c.todos).length = 0
    · simpa [h] using hc
    · rw [if_neg h]
      exact hc
  · intro timer
    exact TodoList.synced_fire timer c
  · unfold TodoList.tick
    cases c.timers with
    | nil => exact hc
    | cons timer rest => exact TodoList.synced_fire timer _
  · exact TodoList.synced_foldl_fire c.timers _ hc

set_option maxRecDepth 100000 in
theorem mutations_keep_store_synced_witness :
    Task2.Synced (Task2.deleteTodo 7
      { todos := [⟨9, "Walk dog", false, "2023-11-14T22:13:20.000Z"⟩, ⟨7, "Buy milk", true, ""⟩],
        todoFilter := "all",
        stored := some "[\x7b\"id\":9,\"text\":\"Walk dog\",\"completed\":false,\"createdAt\":\"2023-11-14T22:13:20.000Z\"\x7d,\x7b\"id\":7,\"text\":\"Buy milk\",\"completed\":true,\"createdAt\":\"\"\x7d]",
        inputValue := "" })
    ∧ TodoList.Synced (TodoList.toggleTodo 7
      { todos := [⟨7, "Buy milk", true, ""⟩], currentFilter := "all",
        stored := some " [ \x7b\"id\":7,\"text\":\"Buy milk\",\"completed\":true,\"createdAt\":\"\"\x7d ]",
        inputValue := "", rendered := [7], timers := [] }) :=
  have h := mutations_keep_store_synced
    { todos := [⟨9, "Walk dog", false, "2023-11-14T22:13:20.000Z"⟩, ⟨7, "Buy milk", true, ""⟩],
      todoFilter := "all",
      stored := some "[\x7b\"id\":9,\"text\":\"Walk dog\",\"completed\":false,\"createdAt\":\"2023-11-14T22:13:20.000Z\"\x7d,\x7b\"id\":7,\"text\":\"Buy milk\",\"completed\":true,\"createdAt\":\"\"\x7d]",
      inputValue := "" }
    { todos := [⟨7, "Buy milk", true, ""⟩], currentFilter := "all",
      stored := some " [ \x7b\"id\":7,\"text\":\"Buy milk\",\"completed\":true,\"createdAt\":\"\"\x7d ]",
      inputValue := "", rendered := [7], timers := [] }
    (by unfold Task2.Synced; rfl) (by unfold TodoList.Synced; rfl)
  ⟨h.1.2.2.1 7, h.2.2.1 7⟩

/-! ## Loading a corrupt item -/

/-- C10: in the class variant, when `JSON.parse` throws on the stored text,
`loadFromStorage` returns the empty array, the array of the empty task
sequence; the error does not leave the method. -/
theorem loadFromStorage_corrupt_item (blob error : String)
    (h : JSON.parse blob = .error error) :
    TodoList.loadFromStorage (some blob) = Json.arr []
    ∧ TodoList.loadFromStorage (some blob) = todosToJson [] := by
  have e : TodoList.loadFromStorage (some blob) = Json.arr [] := by
    by_cases hb : blob = ""
    · simp only [TodoList.loadFromStorage, hb, if_true]
    · simp only [TodoList.loadFromStorage, hb, if_false, h]
  exact ⟨e, e⟩

theorem loadFromStorage_corrupt_item_witness :
    JSON.parse "<html>not json</html>" = .error "Unexpected token in JSON"
    ∧ TodoList.loadFromStorage (some "<html>not json</html>") = Json.arr [] :=
  ⟨rfl, (loadFromStorage_corrupt_item "<html>not json</html>" "Unexpected token in JSON" rfl).1⟩

/-! ## The initial load of the module-level variant -/

/-- C11: on the stored text `<html>not json</html>`, on which `JSON.parse`
throws, the initial load `JSON.parse(localStorage.getItem('todos')) || []` of
the module-level variant ends with that error, while `loadFromStorage` of the
class variant returns the empty array for the same text. -/
theorem loadTodos_corrupt_item_throws :
    JSON.parse "<html>not json</html>" = .error "Unexpected token in JSON"
    ∧ Task2.loadTodos (some "<html>not json</html>") = .error "Unexpected token in JSON"
    ∧ TodoList.loadFromStorage (some "<html>not json</html>") = Json.arr [] :=
  ⟨rfl, rfl, rfl⟩

/-! ## Distinct ids -/

theorem map_id_map_of_id_eq (f : Todo → Todo) (hf : ∀ t, (f t).id = t.id) (L : List Todo) :
    (L.map f).map (fun todo => todo.id) = L.map (fun todo => todo.id) := by
  rw [List.map_map]
  apply List.map_congr_left
  intro t _
  exact hf t

theorem map_id_flip (id : Int) (L : List Todo) :
    (L.map (fun todo => if todo.id = id then { todo with completed := !todo.completed } else todo)).map
      (fun todo => todo.id) = L.map (fun todo => todo.id) := by
  apply map_id_map_of_id_eq
  intro t
  by_cases h : t.id = id <;> simp [h]

theorem map_id_setText (id : Int) (newText : String) (L : List Todo) :
    (L.map (fun todo => if todo.id = id then { todo with text := newText } else todo)).map
      (fun todo => todo.id) = L.map (fun todo => todo.id) := by
  apply map_id_map_of_id_eq
  intro t
  by_cases h : t.id = id <;> simp [h]

theorem nodup_ids_removeById (id : Int) (L : List Todo)
    (h : (L.map (fun todo => todo.id)).Nodup) :
    ((removeById id L).map (fun todo => todo.id)).Nodup :=
  h.sublist ((List.filter_sublist L).map _)

theorem nodup_ids_activeTodos (L : List Todo) (h : (L.map (fun todo => todo.id)).Nodup) :
    ((activeTodos L).map (fun todo => todo.id)).Nodup :=
  h.sublist ((List.filter_sublist L).map _)

namespace TodoList

theorem map_id_flipFirst (id : Int) (L : List Todo) :
    (flipFirst id L).map (fun todo => todo.id) = L.map (fun todo => todo.id) := by
  induction L with
  | nil => rfl
  | cons t ts ih =>
    by_cases h : t.id = id
    · simp [flipFirst, h]
    · simp [flipFirst, h, ih]

theorem nodup_ids_fire (timer : Timer) (s : State)
    (h : (s.todos.map (fun todo => todo.id)).Nodup) :
    ((fire timer s).todos.map (fun todo => todo.id)).Nodup := by
  cases timer with
  | removeTodo id => exact nodup_ids_removeById id s.todos h
  | removeCompleted => exact nodup_ids_activeTodos s.todos h

theorem nodup_ids_foldl_fire (timers : List Timer) :
    ∀ s : State, (s.todos.map (fun todo => todo.id)).Nodup →
      ((timers.foldl (fun st timer => fire timer st) s).todos.map (fun todo => todo.id)).Nodup := by
  induction timers with
  | nil => intro s hs; exact hs
  | cons timer rest ih =>
    intro s hs
    exact ih (fire timer s) (nodup_ids_fire timer s hs)

end TodoList

/-- C12, as stated, fails: two tasks added to the empty store of the
module-level variant at the same clock reading `1700000000000` get the same
id, so the ids, distinct after the first `addTodo`, are not distinct after the
second. -/
theorem addTodo_same_clock_reading_repeats_id :
    (((Task2.addTodo 1700000000000 "2023-11-14T22:13:20.000Z"
        { todos := [], todoFilter := "all", stored := none, inputValue := "Buy milk" }).todos.map
          (fun todo => todo.id)).Nodup)
    ∧ ¬ (((Task2.addTodo 1700000000000 "2023-11-14T22:13:20.000Z"
        { Task2.addTodo 1700000000000 "2023-11-14T22:13:20.000Z"
            { todos := [], todoFilter := "all", stored := none, inputValue := "Buy milk" }
          with inputValue := "Walk dog" }).todos.map (fun todo => todo.id)).Nodup) := by
  decide

/-- C12, amended: from a state with pairwise distinct ids, `addTodo` at a
clock reading `now` that is not the id of a stored task gives pairwise distinct
ids again, and so do `toggleTodo`, `deleteTodo`, `editTodo` and
`clearCompleted` with any arguments, in both variants (for the class variant
the expiry of the timers included). -/
theorem distinct_ids_preserved (m : Task2.State) (c : TodoList.State)
    (hm : (m.todos.map (fun todo => todo.id)).Nodup)
    (hc : (c.todos.map (fun todo => todo.id)).Nodup) :
    ((∀ now iso, now ∉ m.todos.map (fun todo => todo.id) →
          ((Task2.addTodo now iso m).todos.map (fun todo => todo.id)).Nodup)
      ∧ (∀ id, ((Task2.toggleTodo id m).todos.map (fun todo => todo.id)).Nodup)
      ∧ (∀ id, ((Task2.deleteTodo id m).todos.map (fun todo => todo.id)).Nodup)
      ∧ (∀ id newText, ((Task2.editTodo id newText m).todos.map (fun todo => todo.id)).Nodup)
      ∧ ((Task2.clearCompleted m).todos.map (fun todo => todo.id)).Nodup)
    ∧ ((∀ now iso, now ∉ c.todos.map (fun todo => todo.id) →
          ((TodoList.addTodo now iso c).todos.map (fun todo => todo.id)).Nodup)
      ∧ (∀ id, ((TodoList.toggleTodo id c).todos.map (fun todo => todo.id)).Nodup)
      ∧ (∀ id, ((TodoList.deleteTodo id c).todos.map (fun todo => todo.id)).Nodup)
      ∧ ((TodoList.clearCompleted c).todos.map (fun todo => todo.id)).Nodup
      ∧ (∀ timer, ((TodoList.fire timer c).todos.map (fun todo => todo.id)).Nodup)
      ∧ ((TodoList.settle c).todos.map (fun todo => todo.id)).Nodup) := by
  refine ⟨⟨?_, ?_, ?_, ?_, ?_⟩, ⟨?_, ?_, ?_, ?_, ?_, ?_⟩⟩
  · intro now iso hnow
    unfold Task2.addTodo
    by_cases h : jsTrim m.inputValue = ""
    · simpa [h] using hm
    · simp only [h, if_false, Task2.saveTodos, List.map_cons]
      exact List.nodup_cons.mpr ⟨hnow, hm⟩
  · intro id
    simp only [Task2.toggleTodo, Task2.saveTodos]
    rw [map_id_flip]
    exact hm
  · intro id
    exact nodup_ids_removeById id m.todos hm
  · intro id newText
    simp only [Task2.editTodo, Task2.saveTodos]
    rw [map_id_setText]
    exact hm
  · exact nodup_ids_activeTodos m.todos hm
  · intro now iso hnow
    unfold TodoList.addTodo
    by_cases h : jsTrim c.inputValue = ""
    · simpa [h] using hc
    · simp only [h, if_false, TodoList.saveToStorage, TodoList.render, List.map_cons]
      exact List.nodup_cons.mpr ⟨hnow, hc⟩
  · intro id
    rw [TodoList.toggleTodo_todos, TodoList.map_id_flipFirst]
    exact hc
  · intro id
    unfold TodoList.deleteTodo
    by_cases h : id ∈ c.rendered
    · simpa [h] using hc
    · simpa [h] using hc
  · unfold TodoList.clearCompleted
    by_cases h : (completedTodos c.todos).length = 0
    · simpa [h] using hc
    · rw [if_neg h]
      exact hc
  · intro timer
    exact TodoList.nodup_ids_fire timer c hc
  · exact TodoList.nodup_ids_foldl_fire c.timers _ hc

theorem distinct_ids_preserved_witness :
    ((Task2.addTodo 9 "t9"
        { todos := [⟨3, "c", false, "t3"⟩, ⟨1, "a", true, "t1"⟩], todoFilter := "all",
          stored := none, inputValue := "d" }).todos.map (fun todo => todo.id)).Nodup
    ∧ ((TodoList.toggleTodo 3
        { todos := [⟨3, "c", false, "t3"⟩, ⟨1, "a", true, "t1"⟩], currentFilter := "all",
          stored := none, inputValue := "", rendered := [3, 1],
          timers := [] }).todos.map (fun todo => todo.id)).Nodup :=
  have h := distinct_ids_preserved
    { todos := [⟨3, "c", false, "t3"⟩, ⟨1, "a", true, "t1"⟩], todoFilter := "all",
      stored := none, inputValue := "d" }
    { todos := [⟨3, "c", false, "t3"⟩, ⟨1, "a", true, "t1"⟩], currentFilter := "all",
      stored := none, inputValue := "", rendered := [3, 1], timers := [] }
    (by decide) (by decide)
  ⟨h.1.1 9 "t9" (by decide), h.2.2.1 3⟩

/-! ## Deleting in the class variant -/

namespace TodoList

theorem not_mem_removeById (id : Int) (L : List Todo) : ∀ t ∈ removeById id L, t.id ≠ id := by
  intro t ht
  have h := (List.mem_filter.mp ht).2
  simpa using h

theorem settle_append_timer (timer : Timer) (s : State) :
    settle { s with timers := s.timers ++ [timer] } = fire timer (settle s) := by
  simp [settle, List.foldl_append]

end TodoList

/-- C13, as stated, fails: in the class variant, with the task 7 stored and its
element rendered, the sequence still holds the task when `deleteTodo(7)` has
returned (only a timer was started); and with the task stored but no element
rendered for it, `deleteTodo(7)` changes nothing at all. -/
theorem deleteTodo_class_keeps_task_on_return :
    (TodoList.deleteTodo 7
        { todos := [⟨7, "Buy milk", true, ""⟩], currentFilter := "all", stored := none,
          inputValue := "", rendered := [7], timers := [] })
      = { todos := [⟨7, "Buy milk", true, ""⟩], currentFilter := "all", stored := none,
          inputValue := "", rendered := [7], timers := [TodoList.Timer.removeTodo 7] }
    ∧ (TodoList.deleteTodo 7
        { todos := [⟨7, "Buy milk", true, ""⟩], currentFilter := "active", stored := none,
          inputValue := "", rendered := [], timers := [] })
      = { todos := [⟨7, "Buy milk", true, ""⟩], currentFilter := "active", stored := none,
          inputValue := "", rendered := [], timers := [] } := by
  decide

/-- C13, amended: in the class variant `deleteTodo(id)` leaves the sequence and
the stored item as they are when it returns.  When an element with that
`data-id` is rendered it starts one timer, and once that timer has expired no
task of the sequence has the id; when no such element is rendered it does
nothing. -/
theorem deleteTodo_class_removes_on_timer (id : Int) (c : TodoList.State) :
    (TodoList.deleteTodo id c).todos = c.todos
    ∧ (TodoList.deleteTodo id c).stored = c.stored
    ∧ (id ∈ c.rendered → (TodoList.deleteTodo id c).timers = c.timers ++ [TodoList.Timer.removeTodo id])
    ∧ (id ∉ c.rendered → TodoList.deleteTodo id c = c)
    ∧ (∀ t ∈ (TodoList.fire (TodoList.Timer.removeTodo id) c).todos, t.id ≠ id)
    ∧ (id ∈ c.rendered → ∀ t ∈ (TodoList.settle (TodoList.deleteTodo id c)).todos, t.id ≠ id) := by
  by_cases h : id ∈ c.rendered
  · refine ⟨?_, ?_, ?_, ?_, ?_, ?_⟩
    · simp [TodoList.deleteTodo, h]
    · simp [TodoList.deleteTodo, h]
    · intro _
      simp [TodoList.deleteTodo, h]
    · intro hn
      exact absurd h hn
    · exact TodoList.not_mem_removeById id c.todos
    · intro _
      have e : TodoList.deleteTodo id c
          = { c with timers := c.timers ++ [TodoList.Timer.removeTodo id] } := by
        simp [TodoList.deleteTodo, h]
      rw [e, TodoList.settle_append_timer]
      exact TodoList.not_mem_removeById id _
  · refine ⟨?_, ?_, ?_, ?_, ?_, ?_⟩
    · simp [TodoList.deleteTodo, h]
    · simp [TodoList.deleteTodo, h]
    · intro hn
      exact absurd hn h
    · intro _
      simp [TodoList.deleteTodo, h]
    · exact TodoList.not_mem_removeById id c.todos
    · intro hn
      exact absurd hn h

/-! ## Editing a task -/

theorem no_other_id_of_nodup (id : Int) (pre post : List Todo) (t : Todo)
    (hnd : ((pre ++ t :: post).map (fun todo => todo.id)).Nodup) (ht : t.id = id) :
    (∀ u ∈ pre, u.id ≠ id) ∧ (∀ u ∈ post, u.id ≠ id) := by
  rw [List.map_append, List.map_cons, List.nodup_append] at hnd
  obtain ⟨_, hpost, hdisj⟩ := hnd
  constructor
  · intro u hu hid
    have h1 : u.id ∈ pre.map (fun todo => todo.id) := List.mem_map_of_mem _ hu
    have h2 : u.id ∈ t.id :: post.map (fun todo => todo.id) := by
      rw [hid, ← ht]; exact List.mem_cons_self _ _
    exact hdisj h1 h2
  · intro u hu hid
    rw [List.nodup_cons] at hpost
    apply hpost.1
    rw [ht, ← hid]
    exact List.mem_map_of_mem _ hu

theorem map_setText_eq_self_of_not_mem (id : Int) (newText : String) (L : List Todo)
    (h : ∀ t ∈ L, t.id ≠ id) :
    L.map (fun todo => if todo.id = id then { todo with text := newText } else todo) = L := by
  induction L with
  | nil => rfl
  | cons t ts ih =>
    have ht : t.id ≠ id := h t (List.mem_cons_self t ts)
    have hts : ∀ u ∈ ts, u.id ≠ id := fun u hu => h u (List.mem_cons_of_mem t hu)
    simp [ht, ih hts]

/-- C14, as stated, fails: `editTodo` has no test of its own, so
`editTodo(7, "   ")` replaces the text `Buy milk` of task 7 by three blanks. -/
theorem editTodo_blank_text_is_stored :
    (Task2.editTodo 7 "   "
        { todos := [⟨7, "Buy milk", false, ""⟩], todoFilter := "all", stored := none,
          inputValue := "" }).todos
      = [⟨7, "   ", false, ""⟩] := by
  decide

/-- C14, amended: the edit as the page performs it, `finishEdit`, is a no-op
when the value of the edit field is empty after trimming: `editTodo` is not
called and the state (the sequence with the text of that task, the stored
item) is unchanged. -/
theorem finishEdit_blank_input_unchanged (id : Int) (currentText inputValue : String)
    (m : Task2.State) (h : ∀ ch ∈ inputValue.data, isTrimChar ch = true) :
    Task2.finishEdit id currentText inputValue m = m := by
  simp [Task2.finishEdit, jsTrim_eq_empty_of_all inputValue h]

theorem finishEdit_blank_input_unchanged_witness :
    Task2.finishEdit 7 "Buy milk" " \t "
        { todos := [⟨7, "Buy milk", false, ""⟩], todoFilter := "all", stored := none,
          inputValue := "" }
      = { todos := [⟨7, "Buy milk", false, ""⟩], todoFilter := "all", stored := none,
          inputValue := "" } :=
  finishEdit_blank_input_unchanged 7 "Buy milk" " \t "
    { todos := [⟨7, "Buy milk", false, ""⟩], todoFilter := "all", stored := none,
      inputValue := "" }
    (by decide)

/-- C15: on a sequence `pre ++ t :: post` with pairwise distinct ids and
`t.id = id`, `editTodo(id, newText)` gives `pre ++ t' :: post`, where `t'` is
`t` with the text `newText` and the same id, `completed` and `createdAt`: the
other tasks, the length and the order are unchanged; and when no task has the
id the sequence is unchanged. -/
theorem editTodo_changes_only_the_text (id : Int) (newText : String) (m : Task2.State)
    (hm : (m.todos.map (fun todo => todo.id)).Nodup) :
    (∀ pre t post, m.todos = pre ++ t :: post → t.id = id →
        (Task2.editTodo id newText m).todos
            = pre ++ { id := t.id, text := newText, completed := t.completed,
                       createdAt := t.createdAt } :: post
        ∧ (Task2.editTodo id newText m).todos.length = m.todos.length)
    ∧ ((∀ t ∈ m.todos, t.id ≠ id) → (Task2.editTodo id newText m).todos = m.todos) := by
  constructor
  · intro pre t post hL ht
    rw [hL] at hm
    obtain ⟨hpre, hpost⟩ := no_other_id_of_nodup id pre post t hm ht
    have e : (Task2.editTodo id newText m).todos
        = pre ++ { id := t.id, text := newText, completed := t.completed,
                   createdAt := t.createdAt } :: post := by
      simp only [Task2.editTodo, Task2.saveTodos, hL, List.map_append, List.map_cons]
      rw [map_setText_eq_self_of_not_mem id newText pre hpre,
        map_setText_eq_self_of_not_mem id newText post hpost]
      simp [ht]
    refine ⟨e, ?_⟩
    rw [e, hL]
    simp
  · intro h
    exact map_setText_eq_self_of_not_mem id newText m.todos h

theorem editTodo_changes_only_the_text_witness :
    (Task2.editTodo 2 "B"
        { todos := [⟨3, "c", false, "t3"⟩, ⟨2, "b", true, "t2"⟩, ⟨1, "a", true, "t1"⟩],
          todoFilter := "all", stored := none, inputValue := "" }).todos
      = [⟨3, "c", false, "t3"⟩] ++ ⟨2, "B", true, "t2"⟩ :: [⟨1, "a", true, "t1"⟩] :=
  ((editTodo_changes_only_the_text 2 "B"
    { todos := [⟨3, "c", false, "t3"⟩, ⟨2, "b", true, "t2"⟩, ⟨1, "a", true, "t1"⟩],
      todoFilter := "all", stored := none, inputValue := "" }
    (by decide)).1 [⟨3, "c", false, "t3"⟩] ⟨2, "b", true, "t2"⟩ [⟨1, "a", true, "t1"⟩] rfl rfl).1

/-- C16: on a sequence `pre ++ t :: post` with pairwise distinct ids and
`t.id = id`, `toggleTodo(id)` of either variant gives `pre ++ t' :: post`, where
`t'` is `t` with `completed` negated and the same id, text and `createdAt`: the
other tasks, the length and the order are unchanged, and so is the current
filter. -/
theorem toggleTodo_changes_only_completed (id : Int) (pre post : List Todo) (t : Todo)
    (m : Task2.State) (c : TodoList.State)
    (hnd : ((pre ++ t :: post).map (fun todo => todo.id)).Nodup) (ht : t.id = id)
    (hm : m.todos = pre ++ t :: post) (hc : c.todos = pre ++ t :: post) :
    ((Task2.toggleTodo id m).todos
        = pre ++ { id := t.id, text := t.text, completed := !t.completed,
                   createdAt := t.createdAt } :: post
      ∧ (Task2.toggleTodo id m).todos.length = m.todos.length
      ∧ (Task2.toggleTodo id m).todoFilter = m.todoFilter)
    ∧ ((TodoList.toggleTodo id c).todos
        = pre ++ { id := t.id, text := t.text, completed := !t.completed,
                   createdAt := t.createdAt } :: post
      ∧ (TodoList.toggleTodo id c).todos.length = c.todos.length
      ∧ (TodoList.toggleTodo id c).currentFilter = c.currentFilter) := by
  obtain ⟨hpre, hpost⟩ := no_other_id_of_nodup id pre post t hnd ht
  have e1 : (Task2.toggleTodo id m).todos
      = pre ++ { id := t.id, text := t.text, completed := !t.completed,
                 createdAt := t.createdAt } :: post := by
    simp only [Task2.toggleTodo, Task2.saveTodos, hm, List.map_append, List.map_cons]
    rw [map_flip_eq_self_of_not_mem id pre hpre, map_flip_eq_self_of_not_mem id post hpost]
    simp [ht]
  have e2 : (TodoList.toggleTodo id c).todos
      = pre ++ { id := t.id, text := t.text, completed := !t.completed,
                 createdAt := t.createdAt } :: post := by
    rw [TodoList.toggleTodo_todos, hc]
    exact TodoList.flipFirst_append id pre post t hpre ht
  refine ⟨⟨e1, ?_, rfl⟩, ⟨e2, ?_, ?_⟩⟩
  · rw [e1, hm]; simp
  · rw [e2, hc]; simp
  · unfold TodoList.toggleTodo
    cases c.todos.find? (fun todo => todo.id == id) <;> rfl

theorem toggleTodo_changes_only_completed_witness :
    ((Task2.toggleTodo 2
          { todos := [⟨3, "c", false, "t3"⟩, ⟨2, "b", false, "t2"⟩, ⟨1, "a", true, "t1"⟩],
            todoFilter := "active", stored := none, inputValue := "" }).todos
        = [⟨3, "c", false, "t3"⟩, ⟨2, "b", true, "t2"⟩, ⟨1, "a", true, "t1"⟩])
    ∧ ((TodoList.toggleTodo 2
          { todos := [⟨3, "c", false, "t3"⟩, ⟨2, "b", false, "t2"⟩, ⟨1, "a", true, "t1"⟩],
            currentFilter := "active", stored := none, inputValue := "", rendered := [3, 2],
            timers := [] }).currentFilter = "active") :=
  have h := toggleTodo_changes_only_completed 2 [⟨3, "c", false, "t3"⟩] [⟨1, "a", true, "t1"⟩]
    ⟨2, "b", false, "t2"⟩
    { todos := [⟨3, "c", false, "t3"⟩, ⟨2, "b", false, "t2"⟩, ⟨1, "a", true, "t1"⟩],
      todoFilter := "active", stored := none, inputValue := "" }
    { todos := [⟨3, "c", false, "t3"⟩, ⟨2, "b", false, "t2"⟩, ⟨1, "a", true, "t1"⟩],
      currentFilter := "active", stored := none, inputValue := "", rendered := [3, 2],
      timers := [] }
    (by decide) rfl rfl rfl
  ⟨h.1.1, h.2.2.2⟩

/-! ## Choosing a filter -/

/-- C17: for each of the filter values `all`, `active` and `completed`, the
filter button handler of the module-level variant and `setFilter` of the class
variant store the value as the current filter and leave the sequence and the
stored item unchanged; `getFilteredTodos` afterwards answers by the new filter
(the tasks with `completed = false`, those with `completed = true`, or all). -/
theorem setFilter_stores_filter_only (filter : String) (m : Task2.State) (c : TodoList.State)
    (_hf : filter ∈ ["all", "active", "completed"]) :
    ((Task2.onFilterClick filter m).todoFilter = filter
      ∧ (Task2.onFilterClick filter m).todos = m.todos
      ∧ (Task2.onFilterClick filter m).stored = m.stored
      ∧ Task2.getFilteredTodos (Task2.onFilterClick filter m)
          = (if filter = "active" then m.todos.filter (fun t => decide (t.completed = false))
             else if filter = "completed" then m.todos.filter (fun t => decide (t.completed = true))
             else m.todos))
    ∧ ((TodoList.setFilter filter c).currentFilter = filter
      ∧ (TodoList.setFilter filter c).todos = c.todos
      ∧ (TodoList.setFilter filter c).stored = c.stored
      ∧ TodoList.getFilteredTodos (TodoList.setFilter filter c)
          = (if filter = "active" then c.todos.filter (fun t => decide (t.completed = false))
             else if filter = "completed" then c.todos.filter (fun t => decide (t.completed = true))
             else c.todos)) := by
  have key : ∀ L : List Todo, filterTodos filter L
      = (if filter = "active" then L.filter (fun t => decide (t.completed = false))
         else if filter = "completed" then L.filter (fun t => decide (t.completed = true))
         else L) := by
    intro L
    unfold filterTodos
    rw [activeTodos_eq_filter, completedTodos_eq_filter]
  exact ⟨⟨rfl, rfl, rfl, key m.todos⟩, ⟨rfl, rfl, rfl, key c.todos⟩⟩

theorem setFilter_stores_filter_only_witness :
    Task2.getFilteredTodos (Task2.onFilterClick "active"
        { todos := [⟨3, "c", false, "t3"⟩, ⟨1, "a", true, "t1"⟩], todoFilter := "all",
          stored := none, inputValue := "" })
      = [⟨3, "c", false, "t3"⟩]
    ∧ TodoList.getFilteredTodos (TodoList.setFilter "completed"
        { todos := [⟨3, "c", false, "t3"⟩, ⟨1, "a", true, "t1"⟩], currentFilter := "all",
          stored := none, inputValue := "", rendered := [3, 1], timers := [] })
      = [⟨1, "a", true, "t1"⟩] :=
  ⟨(setFilter_stores_filter_only "active"
      { todos := [⟨3, "c", false, "t3"⟩, ⟨1, "a", true, "t1"⟩], todoFilter := "all",
        stored := none, inputValue := "" }
      { todos := [], currentFilter := "all", stored := none, inputValue := "", rendered := [],
        timers := [] }
      (by decide)).1.2.2.2,
   (setFilter_stores_filter_only "completed"
      { todos := [], todoFilter := "all", stored := none, inputValue := "" }
      { todos := [⟨3, "c", false, "t3"⟩, ⟨1, "a", true, "t1"⟩], currentFilter := "all",
        stored := none, inputValue := "", rendered := [3, 1], timers := [] }
      (by decide)).2.2.2.2⟩

/-! ## The scenario of the specification -/

theorem settle_clearCompleted_todos (c : TodoList.State) (hc : c.timers = []) :
    (TodoList.settle (TodoList.clearCompleted c)).todos = activeTodos c.todos := by
  unfold TodoList.clearCompleted
  by_cases h0 : (completedTodos c.todos).length = 0
  · rw [if_pos h0]
    have hnil : completedTodos c.todos = [] := List.length_eq_zero.mp h0
    rw [activeTodos_eq_self_of_completedTodos_eq_nil c.todos hnil]
    simp [TodoList.settle, hc]
  · rw [if_neg h0]
    simp [TodoList.settle, hc, TodoList.fire, TodoList.render, TodoList.saveToStorage]

theorem jsTrim_buy_milk : jsTrim "Buy milk" = "Buy milk" := by decide

theorem jsTrim_walk_dog : jsTrim "Walk dog" = "Walk dog" := by decide

/-- C18, as stated, fails: when both additions read the same clock value
`1700000000000`, the two tasks share the id.  `toggleTodo` with that id then
completes both tasks in the module-level variant, whose active view is empty,
and completes `Walk dog` instead of `Buy milk` in the class variant, whose
active view is the task `Buy milk`. -/
theorem scenario_same_clock_reading_fails :
    Task2.getFilteredTodos (Task2.onFilterClick "active" (Task2.toggleTodo 1700000000000
        (Task2.addTodo 1700000000000 "t"
          { Task2.addTodo 1700000000000 "t"
              { todos := [], todoFilter := "all", stored := none, inputValue := "Buy milk" }
            with inputValue := "Walk dog" })))
      = []
    ∧ TodoList.getFilteredTodos (TodoList.setFilter "active" (TodoList.toggleTodo 1700000000000
        (TodoList.addTodo 1700000000000 "t"
          { TodoList.addTodo 1700000000000 "t"
              { todos := [], currentFilter := "all", stored := none, inputValue := "Buy milk",
                rendered := [], timers := [] }
            with inputValue := "Walk dog" })))
      = [⟨1700000000000, "Buy milk", false, "t"⟩] := by
  decide

/-- C18, amended: for any two different clock readings `n1`, `n2` at the two
additions, starting from the empty store, adding `Buy milk` and then `Walk dog`
gives the texts `Walk dog`, `Buy milk`; after `toggleTodo(n1)`, the id of
`Buy milk`, the active view is exactly the task `Walk dog`; and after
`clearCompleted` (in the class variant: when its timer has expired) the texts
are `Walk dog` alone. -/
theorem scenario_add_toggle_clear (n1 n2 : Int) (iso1 iso2 : String) (hne : n1 ≠ n2) :
    ((Task2.addTodo n2 iso2
          { Task2.addTodo n1 iso1
              { todos := [], todoFilter := "all", stored := none, inputValue := "Buy milk" }
            with inputValue := "Walk dog" }).todos.map (fun todo => todo.text)
        = ["Walk dog", "Buy milk"]
      ∧ Task2.getFilteredTodos (Task2.onFilterClick "active" (Task2.toggleTodo n1
          (Task2.addTodo n2 iso2
            { Task2.addTodo n1 iso1
                { todos := [], todoFilter := "all", stored := none, inputValue := "Buy milk" }
              with inputValue := "Walk dog" })))
        = [⟨n2, "Walk dog", false, iso2⟩]
      ∧ (Task2.clearCompleted (Task2.toggleTodo n1
          (Task2.addTodo n2 iso2
            { Task2.addTodo n1 iso1
                { todos := [], todoFilter := "all", stored := none, inputValue := "Buy milk" }
              with inputValue := "Walk dog" }))).todos.map (fun todo => todo.text)
        = ["Walk dog"])
    ∧ ((TodoList.addTodo n2 iso2
          { TodoList.addTodo n1 iso1
              { todos := [], currentFilter := "all", stored := none, inputValue := "Buy milk",
                rendered := [], timers := [] }
            with inputValue := "Walk dog" }).todos.map (fun todo => todo.text)
        = ["Walk dog", "Buy milk"]
      ∧ TodoList.getFilteredTodos (TodoList.setFilter "active" (TodoList.toggleTodo n1
          (TodoList.addTodo n2 iso2
            { TodoList.addTodo n1 iso1
                { todos := [], currentFilter := "all", stored := none, inputValue := "Buy milk",
                  rendered := [], timers := [] }
              with inputValue := "Walk dog" })))
        = [⟨n2, "Walk dog", false, iso2⟩]
      ∧ (TodoList.settle (TodoList.clearCompleted (TodoList.toggleTodo n1
          (TodoList.addTodo n2 iso2
            { TodoList.addTodo n1 iso1
                { todos := [], currentFilter := "all", stored := none, inputValue := "Buy milk",
                  rendered := [], timers := [] }
              with inputValue := "Walk dog" })))).todos.map (fun todo => todo.text)
        = ["Walk dog"]) := by
  have hb : ("Buy milk" : String) ≠ "" := by decide
  have hw : ("Walk dog" : String) ≠ "" := by decide
  have hne1 : n2 ≠ n1 := fun h => hne h.symm
  have m2 : (Task2.addTodo n2 iso2
          { Task2.addTodo n1 iso1
              { todos := [], todoFilter := "all", stored := none, inputValue := "Buy milk" }
            with inputValue := "Walk dog" }).todos
      = [⟨n2, "Walk dog", false, iso2⟩, ⟨n1, "Buy milk", false, iso1⟩] := by
    simp [Task2.addTodo, Task2.saveTodos, jsTrim_buy_milk, jsTrim_walk_dog, hb, hw]
  have m3 : (Task2.toggleTodo n1 (Task2.addTodo n2 iso2
          { Task2.addTodo n1 iso1
              { todos := [], todoFilter := "all", stored := none, inputValue := "Buy milk" }
            with inputValue := "Walk dog" })).todos
      = [⟨n2, "Walk dog", false, iso2⟩, ⟨n1, "Buy milk", true, iso1⟩] := by
    simp only [Task2.toggleTodo, Task2.saveTodos, m2]
    simp [hne1]
  have c2 : (TodoList.addTodo n2 iso2
          { TodoList.addTodo n1 iso1
              { todos := [], currentFilter := "all", stored := none, inputValue := "Buy milk",
                rendered := [], timers := [] }
            with inputValue := "Walk dog" }).todos
      = [⟨n2, "Walk dog", false, iso2⟩, ⟨n1, "Buy milk", false, iso1⟩] := by
    simp [TodoList.addTodo, TodoList.saveToStorage, TodoList.render, jsTrim_buy_milk,
      jsTrim_walk_dog, hb, hw]
  have c2t : (TodoList.addTodo n2 iso2
          { TodoList.addTodo n1 iso1
              { todos := [], currentFilter := "all", stored := none, inputValue := "Buy milk",
                rendered := [], timers := [] }
            with inputValue := "Walk dog" }).timers = [] := by
    simp [TodoList.addTodo, TodoList.saveToStorage, TodoList.render, jsTrim_buy_milk,
      jsTrim_walk_dog, hb, hw]
  have c3 : (TodoList.toggleTodo n1 (TodoList.addTodo n2 iso2
          { TodoList.addTodo n1 iso1
              { todos := [], currentFilter := "all", stored := none, inputValue := "Buy milk",
                rendered := [], timers := [] }
            with inputValue := "Walk dog" })).todos
      = [⟨n2, "Walk dog", false, iso2⟩, ⟨n1, "Buy milk", true, iso1⟩] := by
    rw [TodoList.toggleTodo_todos, c2]
    simp [TodoList.flipFirst, hne1]
  have c3t : (TodoList.toggleTodo n1 (TodoList.addTodo n2 iso2
          { TodoList.addTodo n1 iso1
              { todos := [], currentFilter := "all", stored := none, inputValue := "Buy milk",
                rendered := [], timers := [] }
            with inputValue := "Walk dog" })).timers = [] := by
    unfold TodoList.toggleTodo
    split
    · simp only [TodoList.render, TodoList.saveToStorage]
      exact c2t
    · exact c2t
  refine ⟨⟨?_, ?_, ?_⟩, ⟨?_, ?_, ?_⟩⟩
  · rw [m2]; rfl
  · simp only [Task2.getFilteredTodos, Task2.onFilterClick, m3]
    rfl
  · simp only [Task2.clearCompleted, Task2.saveTodos, m3]
    rfl
  · rw [c2]; rfl
  · simp only [TodoList.getFilteredTodos, TodoList.setFilter, TodoList.render, c3]
    rfl
  · rw [settle_clearCompleted_todos _ c3t, c3]
    rfl

theorem scenario_add_toggle_clear_witness :
    Task2.getFilteredTodos (Task2.onFilterClick "active" (Task2.toggleTodo 1700000000000
        (Task2.addTodo 1700000000500 "t2"
          { Task2.addTodo 1700000000000 "t1"
              { todos := [], todoFilter := "all", stored := none, inputValue := "Buy milk" }
            with inputValue := "Walk dog" })))
      = [⟨1700000000500, "Walk dog", false, "t2"⟩] :=
  (scenario_add_toggle_clear 1700000000000 1700000000500 "t1" "t2" (by decide)).1.2.1

/-! ## Texts are not empty -/

theorem head_dropWhile_not (p : Char → Bool) (l : List Char) (ch : Char)
    (h : (l.dropWhile p).head? = some ch) : p ch = false := by
  have h1 := List.head?_dropWhile_not p l
  rw [h] at h1
  exact h1

theorem trimChars_head_not_trimmed (cs : List Char) (ch : Char)
    (h : (trimChars cs).head? = some ch) : isTrimChar ch = false := by
  unfold trimChars at h
  rw [List.head?_reverse] at h
  obtain ⟨front, hfront⟩ := List.dropWhile_suffix (l := (cs.dropWhile isTrimChar).reverse) isTrimChar
  have hne : ((cs.dropWhile isTrimChar).reverse.dropWhile isTrimChar) ≠ [] := by
    intro hnil
    rw [hnil] at h
    simp at h
  have h2 : (cs.dropWhile isTrimChar).reverse.getLast? = some ch := by
    rw [← hfront, List.getLast?_append_of_ne_nil front hne]
    exact h
  rw [List.getLast?_reverse] at h2
  exact head_dropWhile_not isTrimChar cs ch h2

theorem trimChars_last_not_trimmed (cs : List Char) (ch : Char)
    (h : (trimChars cs).getLast? = some ch) : isTrimChar ch = false := by
  unfold trimChars at h
  rw [List.getLast?_reverse] at h
  exact head_dropWhile_not isTrimChar _ ch h

theorem text_nonempty_map_flip (id : Int) (L : List Todo) (h : ∀ t ∈ L, t.text ≠ "") :
    ∀ t ∈ L.map (fun todo =>
      if todo.id = id then { todo with completed := !todo.completed } else todo), t.text ≠ "" := by
  intro t ht
  obtain ⟨u, hu, rfl⟩ := List.mem_map.mp ht
  by_cases hid : u.id = id
  · simpa [hid] using h u hu
  · simpa [hid] using h u hu

theorem text_nonempty_map_setText (id : Int) (newText : String) (L : List Todo)
    (h : ∀ t ∈ L, t.text ≠ "") (hnew : newText ≠ "") :
    ∀ t ∈ L.map (fun todo => if todo.id = id then { todo with text := newText } else todo),
      t.text ≠ "" := by
  intro t ht
  obtain ⟨u, hu, rfl⟩ := List.mem_map.mp ht
  by_cases hid : u.id = id
  · simpa [hid] using hnew
  · simpa [hid] using h u hu

theorem text_nonempty_filter (p : Todo → Bool) (L : List Todo) (h : ∀ t ∈ L, t.text ≠ "") :
    ∀ t ∈ L.filter p, t.text ≠ "" :=
  fun t ht => h t (List.mem_filter.mp ht).1

namespace TodoList

theorem text_nonempty_flipFirst (id : Int) (L : List Todo) (h : ∀ t ∈ L, t.text ≠ "") :
    ∀ t ∈ flipFirst id L, t.text ≠ "" := by
  induction L with
  | nil => intro t ht; simp [flipFirst] at ht
  | cons u us ih =>
    have hu : u.text ≠ "" := h u (List.mem_cons_self u us)
    have hus : ∀ v ∈ us, v.text ≠ "" := fun v hv => h v (List.mem_cons_of_mem u hv)
    intro t ht
    by_cases hid : u.id = id
    · simp only [flipFirst, hid, if_true, List.mem_cons] at ht
      rcases ht with rfl | ht
      · exact hu
      · exact hus t ht
    · simp only [flipFirst, hid, if_false, List.mem_cons] at ht
      rcases ht with rfl | ht
      · exact hu
      · exact ih hus t ht

theorem text_nonempty_fire (timer : Timer) (s : State) (h : ∀ t ∈ s.todos, t.text ≠ "") :
    ∀ t ∈ (fire timer s).todos, t.text ≠ "" := by
  cases timer with
  | removeTodo id => exact text_nonempty_filter _ s.todos h
  | removeCompleted => exact text_nonempty_filter _ s.todos h

theorem text_nonempty_foldl_fire (timers : List Timer) :
    ∀ s : State, (∀ t ∈ s.todos, t.text ≠ "") →
      ∀ t ∈ (timers.foldl (fun st timer => fire timer st) s).todos, t.text ≠ "" := by
  induction timers with
  | nil => intro s hs; exact hs
  | cons timer rest ih =>
    intro s hs
    exact ih (fire timer s) (text_nonempty_fire timer s hs)

end TodoList

/-- C19, as stated, fails: `editTodo(7, "")` stores the empty text in task 7 of
a sequence whose texts were all non-empty. -/
theorem editTodo_empty_text_is_stored :
    (∀ t ∈ ([⟨7, "Buy milk", false, ""⟩] : List Todo), t.text ≠ "")
    ∧ (Task2.editTodo 7 ""
        { todos := [⟨7, "Buy milk", false, ""⟩], todoFilter := "all", stored := none,
          inputValue := "" }).todos
      = [⟨7, "", false, ""⟩] := by
  decide

/-- C19, amended: from a state in which every text is non-empty, every text is
still non-empty after `addTodo`, `toggleTodo`, `deleteTodo`, `clearCompleted`
with any arguments (timer expiry of the class variant included), after
`editTodo` with a non-empty new text, and after the edit as the page performs
it, `finishEdit`, with any value of the edit field.  The text that `addTodo`
stores is the trimmed input, which neither starts nor ends with a character
that `trim` removes. -/
theorem texts_stay_nonempty (m : Task2.State) (c : TodoList.State)
    (hm : ∀ t ∈ m.todos, t.text ≠ "") (hc : ∀ t ∈ c.todos, t.text ≠ "") :
    ((∀ now iso, ∀ t ∈ (Task2.addTodo now iso m).todos, t.text ≠ "")
      ∧ (∀ id, ∀ t ∈ (Task2.toggleTodo id m).todos, t.text ≠ "")
      ∧ (∀ id, ∀ t ∈ (Task2.deleteTodo id m).todos, t.text ≠ "")
      ∧ (∀ id newText, newText ≠ "" → ∀ t ∈ (Task2.editTodo id newText m).todos, t.text ≠ "")
      ∧ (∀ id currentText inputValue,
          ∀ t ∈ (Task2.finishEdit id currentText inputValue m).todos, t.text ≠ "")
      ∧ (∀ t ∈ (Task2.clearCompleted m).todos, t.text ≠ ""))
    ∧ ((∀ now iso, ∀ t ∈ (TodoList.addTodo now iso c).todos, t.text ≠ "")
      ∧ (∀ id, ∀ t ∈ (TodoList.toggleTodo id c).todos, t.text ≠ "")
      ∧ (∀ id, ∀ t ∈ (TodoList.deleteTodo id c).todos, t.text ≠ "")
      ∧ (∀ t ∈ (TodoList.clearCompleted c).todos, t.text ≠ "")
      ∧ (∀ timer, ∀ t ∈ (TodoList.fire timer c).todos, t.text ≠ "")
      ∧ (∀ t ∈ (TodoList.settle c).todos, t.text ≠ ""))
    ∧ ((∀ now iso, jsTrim m.inputValue ≠ "" →
          (Task2.addTodo now iso m).todos.head?.map (fun todo => todo.text)
            = some (jsTrim m.inputValue))
      ∧ (∀ now iso, jsTrim c.inputValue ≠ "" →
          (TodoList.addTodo now iso c).todos.head?.map (fun todo => todo.text)
            = some (jsTrim c.inputValue))
      ∧ (∀ (input : String) (ch : Char),
          (jsTrim input).data.head? = some ch → isTrimChar ch = false)
      ∧ (∀ (input : String) (ch : Char),
          (jsTrim input).data.getLast? = some ch → isTrimChar ch = false)) := by
  have hedit : ∀ id newText, newText ≠ "" →
      ∀ t ∈ (Task2.editTodo id newText m).todos, t.text ≠ "" := by
    intro id newText hnew
    exact text_nonempty_map_setText id newText m.todos hm hnew
  refine ⟨⟨?_, ?_, ?_, hedit, ?_, ?_⟩, ⟨?_, ?_, ?_, ?_, ?_, ?_⟩, ⟨?_, ?_, ?_, ?_⟩⟩
  · intro now iso
    unfold Task2.addTodo
    by_cases h : jsTrim m.inputValue = ""
    · simpa [h] using hm
    · simp only [h, if_false, Task2.saveTodos]
      intro t ht
      rcases List.mem_cons.mp ht with rfl | ht
      · exact h
      · exact hm t ht
  · intro id
    exact text_nonempty_map_flip id m.todos hm
  · intro id
    exact text_nonempty_filter _ m.todos hm
  · intro id currentText inputValue
    unfold Task2.finishEdit
    by_cases h : jsTrim inputValue ≠ "" ∧ jsTrim inputValue ≠ currentText
    · rw [if_pos h]
      exact hedit id (jsTrim inputValue) h.1
    · rw [if_neg h]
      exact hm
  · exact text_nonempty_filter _ m.todos hm
  · intro now iso
    unfold TodoList.addTodo
    by_cases h : jsTrim c.inputValue = ""
    · simpa [h] using hc
    · simp only [h, if_false, TodoList.saveToStorage, TodoList.render]
      intro t ht
      rcases List.mem_cons.mp ht with rfl | ht
      · exact h
      · exact hc t ht
  · intro id
    rw [TodoList.toggleTodo_todos]
    exact TodoList.text_nonempty_flipFirst id c.todos hc
  · intro id
    unfold TodoList.deleteTodo
    by_cases h : id ∈ c.rendered
    · simpa [h] using hc
    · simpa [h] using hc
  · unfold TodoList.clearCompleted
    by_cases h : (completedTodos c.todos).length = 0
    · simpa [h] using hc
    · rw [if_neg h]
      exact hc
  · intro timer
    exact TodoList.text_nonempty_fire timer c hc
  · exact TodoList.text_nonempty_foldl_fire c.timers _ hc
  · intro now iso h
    simp [Task2.addTodo, Task2.saveTodos, h]
  · intro now iso h
    simp [TodoList.addTodo, TodoList.saveToStorage, TodoList.render, h]
  · intro input ch h
    exact trimChars_head_not_trimmed input.data ch h
  · intro input ch h
    exact trimChars_last_not_trimmed input.data ch h

theorem texts_stay_nonempty_witness :
    (∀ t ∈ (Task2.finishEdit 7 "Buy milk" "  Buy oat milk "
        { todos := [⟨7, "Buy milk", false, ""⟩], todoFilter := "all", stored := none,
          inputValue := "" }).todos, t.text ≠ "")
    ∧ (∀ t ∈ (TodoList.addTodo 9 "t9"
        { todos := [⟨7, "Buy milk", false, ""⟩], currentFilter := "all", stored := none,
          inputValue := " Walk dog ", rendered := [7], timers := [] }).todos, t.text ≠ "") :=
  have h := texts_stay_nonempty
    { todos := [⟨7, "Buy milk", false, ""⟩], todoFilter := "all", stored := none,
      inputValue := "" }
    { todos := [⟨7, "Buy milk", false, ""⟩], currentFilter := "all", stored := none,
      inputValue := " Walk dog ", rendered := [7], timers := [] }
    (by decide) (by decide)
  ⟨h.1.2.2.2.2.1 7 "Buy milk" "  Buy oat milk ", h.2.1.1 9 "t9"⟩

/-! ## The task counter -/

/-- C20: with `n` the number of tasks with `completed = false` in the whole
sequence, `updateTaskCount` writes `1 task remaining` when `n = 1` and the
digits of `n` followed by ` tasks remaining` otherwise, whatever the current
filter is; in the class variant the count is wrapped in the `taskCount` span and
the clear-completed button is disabled exactly when no task has
`completed = true`. -/
theorem updateTaskCount_counts_active (m : Task2.State) (c : TodoList.State) :
    ((m.todos.countP (fun t => decide (t.completed = false)) = 1 →
          Task2.updateTaskCount m = "1 task remaining")
      ∧ (m.todos.countP (fun t => decide (t.completed = false)) ≠ 1 →
          Task2.updateTaskCount m
            = String.mk (JSON.natDigits (m.todos.countP (fun t => decide (t.completed = false))))
                ++ " tasks remaining")
      ∧ (∀ filter, Task2.updateTaskCount { m with todoFilter := filter }
            = Task2.updateTaskCount m))
    ∧ ((c.todos.countP (fun t => decide (t.completed = false)) = 1 →
          (TodoList.updateTaskCount c).html = "<span id=\"taskCount\">1</span> task remaining")
      ∧ (c.todos.countP (fun t => decide (t.completed = false)) ≠ 1 →
          (TodoList.updateTaskCount c).html
            = "<span id=\"taskCount\">"
                ++ String.mk (JSON.natDigits (c.todos.countP (fun t => decide (t.completed = false))))
                ++ "</span> tasks remaining")
      ∧ ((TodoList.updateTaskCount c).clearDisabled = true
          ↔ c.todos.countP (fun t => decide (t.completed = true)) = 0)
      ∧ (∀ filter, TodoList.updateTaskCount { c with currentFilter := filter }
            = TodoList.updateTaskCount c)) := by
  have hcount : ∀ L : List Todo, (L.filter (fun todo => !todo.completed)).length
      = L.countP (fun t => decide (t.completed = false)) := by
    intro L
    rw [List.countP_eq_length_filter]
    congr 2
    funext t
    cases t.completed <;> rfl
  have hdone : ∀ L : List Todo, (L.filter (fun todo => todo.completed)).length
      = L.countP (fun t => decide (t.completed = true)) := by
    intro L
    rw [List.countP_eq_length_filter]
    congr 2
    funext t
    cases t.completed <;> rfl
  refine ⟨⟨?_, ?_, fun _ => rfl⟩, ⟨?_, ?_, ?_, fun _ => rfl⟩⟩
  · intro h
    simp only [Task2.updateTaskCount, hcount, h]
    decide
  · intro h
    simp only [Task2.updateTaskCount, hcount, h, ne_eq, not_false_eq_true, if_true,
      String.append_assoc]
    rfl
  · intro h
    simp only [TodoList.updateTaskCount, hcount, h]
    decide
  · intro h
    simp only [TodoList.updateTaskCount, hcount, h, if_false, String.append_assoc]
    rfl
  · simp only [TodoList.updateTaskCount, hdone, decide_eq_true_eq]

/-! ## Loading when nothing or something else than an array is stored -/

/-- C21: when nothing is stored under the key, the initial load of the
module-level variant, `JSON.parse(null) || []`, ends without error with the
empty array, and `loadFromStorage` of the class variant returns the empty
array: both stores start with the empty task sequence. -/
theorem load_absent_item_gives_empty :
    Task2.loadTodos none = .ok (Json.arr [])
    ∧ Task2.loadTodos none = .ok (todosToJson [])
    ∧ TodoList.loadFromStorage none = Json.arr []
    ∧ TodoList.loadFromStorage none = todosToJson [] :=
  ⟨rfl, rfl, rfl, rfl⟩

/-- C27: on the stored text `null`, valid JSON that is no array,
`loadFromStorage` of the class variant returns `null`, and on the text `5` the
number 5, where the module-level load `JSON.parse(...) || []` gives the empty
array for `null`; `this.todos` is then no array. -/
theorem loadFromStorage_non_array_item :
    TodoList.loadFromStorage (some "null") = Json.null
    ∧ Task2.loadTodos (some "null") = .ok (Json.arr [])
    ∧ TodoList.loadFromStorage (some "5") = Json.num 5 :=
  ⟨rfl, rfl, rfl⟩

/-! ## The two toggles agree -/

theorem map_flip_eq_flipFirst (id : Int) (L : List Todo)
    (h : (L.map (fun todo => todo.id)).Nodup) :
    L.map (fun todo => if todo.id = id then { todo with completed := !todo.completed } else todo)
      = TodoList.flipFirst id L := by
  induction L with
  | nil => rfl
  | cons t ts ih =>
    rw [List.map_cons, List.nodup_cons] at h
    by_cases ht : t.id = id
    · have hts : ∀ u ∈ ts, u.id ≠ id := by
        intro u hu hid
        apply h.1
        rw [ht, ← hid]
        exact List.mem_map_of_mem _ hu
      rw [List.map_cons, map_flip_eq_self_of_not_mem id ts hts]
      simp [TodoList.flipFirst, ht]
    · rw [List.map_cons, ih h.2]
      simp [TodoList.flipFirst, ht]

/-- C26: on one and the same task sequence with pairwise distinct ids, the
map-based `toggleTodo` of the module-level variant and the find-based
`toggleTodo` of the class variant give equal sequences, for every id. -/
theorem toggleTodo_variants_agree (id : Int) (m : Task2.State) (c : TodoList.State)
    (hsame : m.todos = c.todos) (hnd : (m.todos.map (fun todo => todo.id)).Nodup) :
    (Task2.toggleTodo id m).todos = (TodoList.toggleTodo id c).todos := by
  rw [TodoList.toggleTodo_todos, ← hsame]
  exact map_flip_eq_flipFirst id m.todos hnd

theorem toggleTodo_variants_agree_witness :
    (Task2.toggleTodo 2
        { todos := [⟨3, "c", false, "t3"⟩, ⟨2, "b", false, "t2"⟩], todoFilter := "all",
          stored := none, inputValue := "" }).todos
      = (TodoList.toggleTodo 2
        { todos := [⟨3, "c", false, "t3"⟩, ⟨2, "b", false, "t2"⟩], currentFilter := "all",
          stored := none, inputValue := "", rendered := [3, 2], timers := [] }).todos :=
  toggleTodo_variants_agree 2
    { todos := [⟨3, "c", false, "t3"⟩, ⟨2, "b", false, "t2"⟩], todoFilter := "all",
      stored := none, inputValue := "" }
    { todos := [⟨3, "c", false, "t3"⟩, ⟨2, "b", false, "t2"⟩], currentFilter := "all",
      stored := none, inputValue := "", rendered := [3, 2], timers := [] }
    rfl (by decide)

/-! ## The credit card check -/

namespace FormSystem

theorem luhnLoop_eq_sum : ∀ (l : List Char) (sum k : Nat) (isEven : Bool),
    (isEven = true ↔ k % 2 = 1) →
    luhnLoop l sum isEven
      = sum + (((l.map JSON.digitVal).enumFrom k).map (fun entry =>
          if entry.1 % 2 = 1 then (if 2 * entry.2 > 9 then 2 * entry.2 - 9 else 2 * entry.2)
          else entry.2)).sum := by
  intro l
  induction l with
  | nil => intro sum k isEven _; simp [luhnLoop]
  | cons c rest ih =>
    intro sum k isEven hpar
    have hnext : ((!isEven) = true ↔ (k + 1) % 2 = 1) := by
      cases isEven
      · have : ¬ k % 2 = 1 := fun h => by simpa using hpar.mpr h
        simp
        omega
      · have : k % 2 = 1 := hpar.mp rfl
        simp
        omega
    rw [luhnLoop, ih _ (k + 1) (!isEven) hnext, List.map_cons, List.enumFrom_cons, List.map_cons,
      List.sum_cons]
    cases isEven
    · have hk : ¬ k % 2 = 1 := fun h => by simpa using hpar.mpr h
      simp only [hk, if_false, Bool.false_eq_true]
      omega
    · have hk : k % 2 = 1 := hpar.mp rfl
      simp only [hk, if_true, Nat.mul_comm (JSON.digitVal c) 2]
      omega

end FormSystem

/-- C22: for every string, `validateCreditCard` returns true exactly when the
digits of the string, the other characters removed, number at least 13 and at
most 19 and their Luhn sum (every second digit from the right, starting with
the second-to-last, doubled and reduced by 9 when the double exceeds 9, all
digits added) is divisible by 10. -/
theorem validateCreditCard_is_luhn_check (number : String) :
    FormSystem.validateCreditCard number = true
      ↔ (13 ≤ (FormSystem.digitsOf number).length ∧ (FormSystem.digitsOf number).length ≤ 19
          ∧ FormSystem.luhnSum (FormSystem.digitsOf number) % 10 = 0) := by
  have hsum : FormSystem.luhnLoop (number.data.filter JSON.isDigit).reverse 0 false
      = FormSystem.luhnSum (FormSystem.digitsOf number) := by
    rw [FormSystem.luhnLoop_eq_sum _ 0 0 false (by simp)]
    simp [FormSystem.luhnSum, FormSystem.digitsOf, List.enum, List.map_reverse]
  have hlen : (FormSystem.digitsOf number).length = (number.data.filter JSON.isDigit).length := by
    simp [FormSystem.digitsOf]
  unfold FormSystem.validateCreditCard
  simp only [hsum, hlen]
  by_cases h : (number.data.filter JSON.isDigit).length < 13
      ∨ (number.data.filter JSON.isDigit).length > 19
  · simp only [h, if_true]
    constructor
    · intro hf; exact absurd hf (by decide)
    · intro hr; omega
  · simp only [h, if_false, beq_iff_eq]
    constructor
    · intro hr; exact ⟨by omega, by omega, hr⟩
    · intro hr; exact hr.2.2

/-! ## The message field -/

theorem trimChars_replicate_a (n : Nat) :
    trimChars (List.replicate (n + 1) 'a') = List.replicate (n + 1) 'a' := by
  have ha : isTrimChar 'a' = false := by decide
  have h1 : (List.replicate (n + 1) 'a').dropWhile isTrimChar = List.replicate (n + 1) 'a' := by
    rw [List.replicate_succ, List.dropWhile_cons_of_neg (by simp [ha])]
  unfold trimChars
  rw [h1, List.reverse_replicate, h1, List.reverse_replicate]

theorem jsLength_replicate_a (n : Nat) : jsLength ⟨List.replicate n 'a'⟩ = n := by
  have ha : ('a' : Char).toNat < 0x10000 := by decide
  simp [jsLength, ha]

theorem validateMessageField_replicate_a (n : Nat) (h10 : 10 ≤ n + 1) (h1000 : n + 1 ≤ 1000) :
    Task2.validateMessageField ⟨List.replicate (n + 1) 'a'⟩ = (true, "") := by
  have htrim : jsTrim ⟨List.replicate (n + 1) 'a'⟩ = ⟨List.replicate (n + 1) 'a'⟩ := by
    unfold jsTrim
    rw [trimChars_replicate_a]
  have hne : (⟨List.replicate (n + 1) 'a'⟩ : String) ≠ "" := by
    intro h
    have := congrArg String.data h
    simp [List.replicate_succ] at this
  have h1 : ¬ (n + 1 < 10) := by omega
  have h2 : ¬ (n + 1 > 1000) := by omega
  simp only [Task2.validateMessageField, htrim, hne, if_false, jsLength_replicate_a, h1, h2]

/-- C24: on a message of exactly 1000 characters (1000 times `a`)
`validateField` ends with `isValid = true` and no error message, although its
message for a long value is `Message must be less than 1000 characters`; the
first length it rejects is 1001.  In general the `message` case accepts a value
exactly when its trimmed length is at least 10 and at most 1000. -/
theorem validateMessageField_accepts_1000 :
    Task2.validateMessageField ⟨List.replicate 1000 'a'⟩ = (true, "")
    ∧ ∀ fieldValue : String, (Task2.validateMessageField fieldValue).1 = true
        ↔ (10 ≤ jsLength (jsTrim fieldValue) ∧ jsLength (jsTrim fieldValue) ≤ 1000) := by
  refine ⟨validateMessageField_replicate_a 999 (by omega) (by omega), ?_⟩
  intro fieldValue
  unfold Task2.validateMessageField
  by_cases h0 : jsTrim fieldValue = ""
  · have hlen : jsLength (jsTrim fieldValue) = 0 := by rw [h0]; rfl
    simp only [h0, if_true]
    constructor
    · intro hf; exact absurd hf (by decide)
    · intro hr
      rw [h0] at hlen
      omega
  · by_cases h1 : jsLength (jsTrim fieldValue) < 10
    · simp only [h0, if_false, h1, if_true]
      constructor
      · intro hf; exact absurd hf (by decide)
      · intro hr; omega
    · by_cases h2 : jsLength (jsTrim fieldValue) > 1000
      · simp only [h0, if_false, h1, h2, if_true]
        constructor
        · intro hf; exact absurd hf (by decide)
        · intro hr; omega
      · simp only [h0, if_false, h1, h2]
        constructor
        · intro _; omega
        · intro _; trivial

/-! ## The name validator -/

/-- C25, as stated, fails: the `name` validator of `FormSystem` accepts `a b`,
which holds a blank and so not only letters. -/
theorem nameTest_accepts_blank_inside :
    FormSystem.nameTest "a b" = true ∧ ¬ (∀ c ∈ "a b".data, c.isAlpha = true) := by
  decide

/-- C25, amended: the `name` validator of `FormSystem` accepts a value exactly
when it is at least 2 characters (UTF-16 code units) long and every character
of it is a letter `a` to `z`, `A` to `Z` or a white-space character (the class
`\s`). -/
theorem nameTest_iff_letters_and_spaces (value : String) :
    FormSystem.nameTest value = true
      ↔ (2 ≤ jsLength value ∧ ∀ c ∈ value.data, isAsciiLetter c = true ∨ isTrimChar c = true) := by
  unfold FormSystem.nameTest
  simp only [Bool.and_eq_true, decide_eq_true_eq, List.all_eq_true, Bool.or_eq_true,
    Bool.not_eq_true', List.isEmpty_eq_false]
  constructor
  · intro h
    exact ⟨h.1, h.2.2⟩
  · intro h
    refine ⟨h.1, ?_, h.2⟩
    intro hnil
    have : jsLength value = 0 := by simp [jsLength, hnil]
    omega

/-! ## Escaping HTML -/

namespace Task2

theorem escapeChar_cases (c : Char) :
    ((c ≠ '&' ∧ c ≠ '<' ∧ c ≠ '>' ∧ c ≠ '"' ∧ c ≠ Char.ofNat 39) ∧ escapeChar c = [c])
    ∨ (∃ entity ∈ ["&amp;", "&lt;", "&gt;", "&quot;", "&#039;"], escapeChar c = entity.data) := by
  unfold escapeChar
  by_cases h1 : c = '&'
  · right; exact ⟨"&amp;", by simp, by simp [h1]⟩
  by_cases h2 : c = '<'
  · right; exact ⟨"&lt;", by simp, by simp [h2]⟩
  by_cases h3 : c = '>'
  · right; exact ⟨"&gt;", by simp, by simp [h3]⟩
  by_cases h4 : c = '"'
  · right; exact ⟨"&quot;", by simp, by simp [h4]⟩
  by_cases h5 : c = Char.ofNat 39
  · right; refine ⟨"&#039;", by simp, ?_⟩
    rw [if_neg h1, if_neg h2, if_neg h3, if_neg h4, if_pos h5]
  · left
    exact ⟨⟨h1, h2, h3, h4, h5⟩, by simp [h1, h2, h3, h4, h5]⟩

theorem entity_shape (entity : String)
    (h : entity ∈ ["&amp;", "&lt;", "&gt;", "&quot;", "&#039;"]) :
    (∀ ch ∈ entity.data, ch ≠ '<' ∧ ch ≠ '>' ∧ ch ≠ '"' ∧ ch ≠ Char.ofNat 39)
    ∧ ∃ tail, entity.data = '&' :: tail ∧ '&' ∉ tail := by
  simp only [List.mem_cons, List.mem_singleton, List.not_mem_nil, or_false] at h
  rcases h with rfl | rfl | rfl | rfl | rfl
  · exact ⟨by decide, "amp;".data, rfl, by decide⟩
  · exact ⟨by decide, "lt;".data, rfl, by decide⟩
  · exact ⟨by decide, "gt;".data, rfl, by decide⟩
  · exact ⟨by decide, "quot;".data, rfl, by decide⟩
  · exact ⟨by decide, "#039;".data, rfl, by decide⟩

theorem split_after_block (x : Char) : ∀ (A R pre post : List Char),
    A ++ R = pre ++ x :: post → x ∉ A → ∃ rest, R = rest ++ x :: post := by
  intro A
  induction A with
  | nil => intro R pre post h _; exact ⟨pre, h⟩
  | cons a A ih =>
    intro R pre post h hx
    cases pre with
    | nil =>
      simp only [List.cons_append, List.nil_append, List.cons.injEq] at h
      exact absurd (h.1 ▸ List.mem_cons_self a A) hx
    | cons p pre =>
      simp only [List.cons_append, List.cons.injEq] at h
      exact ih R pre post h.2 (fun hmem => hx (List.mem_cons_of_mem a hmem))

theorem ampersand_begins_entity : ∀ (text pre post : List Char),
    text.flatMap escapeChar = pre ++ '&' :: post →
    ∃ entity ∈ ["&amp;", "&lt;", "&gt;", "&quot;", "&#039;"], entity.data <+: '&' :: post := by
  intro text
  induction text with
  | nil =>
    intro pre post h
    simp at h
  | cons c cs ih =>
    intro pre post h
    rw [List.flatMap_cons] at h
    rcases escapeChar_cases c with ⟨hc, hself⟩ | ⟨entity, hmem, hent⟩
    · rw [hself] at h
      have hx : '&' ∉ [c] := by
        simp only [List.mem_singleton]
        exact fun e => hc.1 e.symm
      obtain ⟨rest, hrest⟩ := split_after_block '&' [c] _ pre post h hx
      exact ih rest post hrest
    · obtain ⟨_, tail, htail, hno⟩ := entity_shape entity hmem
      rw [hent] at h
      cases pre with
      | nil =>
        refine ⟨entity, hmem, cs.flatMap escapeChar, ?_⟩
        simpa using h
      | cons p pre =>
        rw [htail] at h
        simp only [List.cons_append, List.cons.injEq] at h
        obtain ⟨rest, hrest⟩ := split_after_block '&' tail _ pre post h.2 hno
        exact ih rest post hrest

theorem flatMap_escapeChar_eq_self : ∀ text : List Char,
    (∀ ch ∈ text, ch ≠ '&' ∧ ch ≠ '<' ∧ ch ≠ '>' ∧ ch ≠ '"' ∧ ch ≠ Char.ofNat 39) →
    text.flatMap escapeChar = text := by
  intro text
  induction text with
  | nil => intro _; rfl
  | cons c cs ih =>
    intro h
    obtain ⟨h1, h2, h3, h4, h5⟩ := h c (List.mem_cons_self c cs)
    have hc : escapeChar c = [c] := by simp [escapeChar, h1, h2, h3, h4, h5]
    rw [List.flatMap_cons, hc, ih (fun ch hch => h ch (List.mem_cons_of_mem c hch))]
    rfl

end Task2

/-- C29: for every text, `escapeHtml(text)` holds none of the characters `<`,
`>`, the double quote and the apostrophe; every `&` in it is the start of one of
the entities `&amp;`, `&lt;`, `&gt;`, `&quot;`, `&#039;`; and a text without any
of the five characters is returned as it is. -/
theorem escapeHtml_escapes_markup (text : String) :
    (∀ ch ∈ (Task2.escapeHtml text).data,
        ch ≠ '<' ∧ ch ≠ '>' ∧ ch ≠ '"' ∧ ch ≠ Char.ofNat 39)
    ∧ (∀ pre post, (Task2.escapeHtml text).data = pre ++ '&' :: post →
        ∃ entity ∈ ["&amp;", "&lt;", "&gt;", "&quot;", "&#039;"], entity.data <+: '&' :: post)
    ∧ ((∀ ch ∈ text.data, ch ≠ '&' ∧ ch ≠ '<' ∧ ch ≠ '>' ∧ ch ≠ '"' ∧ ch ≠ Char.ofNat 39) →
        Task2.escapeHtml text = text) := by
  refine ⟨?_, ?_, ?_⟩
  · intro ch hch
    simp only [Task2.escapeHtml, List.mem_flatMap] at hch
    obtain ⟨c, _, hin⟩ := hch
    rcases Task2.escapeChar_cases c with ⟨hc, hself⟩ | ⟨entity, hmem, hent⟩
    · rw [hself, List.mem_singleton] at hin
      subst hin
      exact hc.2
    · rw [hent] at hin
      exact (Task2.entity_shape entity hmem).1 ch hin
  · intro pre post h
    exact Task2.ampersand_begins_entity text.data pre post h
  · intro h
    unfold Task2.escapeHtml
    rw [Task2.flatMap_escapeChar_eq_self text.data h]

/-! ## The quiz score -/

/-- C28: the quiz has 5 questions, and from the initial state the events
"click option 0, then click Next six times" (the Next button stays enabled
until the first timer expires) lead to `quizScore = 6`; when the six timers
have expired the result is on display with that score. -/
theorem quizScore_exceeds_question_count :
    Quiz.quizQuestions.length = 5
    ∧ (Quiz.run [Quiz.Event.clickOption 0, Quiz.Event.clickNext, Quiz.Event.clickNext,
          Quiz.Event.clickNext, Quiz.Event.clickNext, Quiz.Event.clickNext,
          Quiz.Event.clickNext] Quiz.initial).quizScore = 6
    ∧ (Quiz.run [Quiz.Event.clickOption 0, Quiz.Event.clickNext, Quiz.Event.clickNext,
          Quiz.Event.clickNext, Quiz.Event.clickNext, Quiz.Event.clickNext,
          Quiz.Event.clickNext, Quiz.Event.timerFires, Quiz.Event.timerFires,
          Quiz.Event.timerFires, Quiz.Event.timerFires, Quiz.Event.timerFires,
          Quiz.Event.timerFires] Quiz.initial)
        = { currentQuestionIndex := 6, selectedAnswer := none, quizScore := 6,
            nextDisabled := true, optionsEnabled := true, resultShown := true, timers := 0 } := by
  decide

/-! ## The carousel index -/

namespace Carousel

theorem navigateCarousel_in_range (direction : String) (i : Int) (h0 : 0 ≤ i) (h5 : i < 5) :
    0 ≤ navigateCarousel direction i ∧ navigateCarousel direction i < 5 := by
  unfold navigateCarousel
  by_cases hd : direction = "next"
  · rw [if_pos hd]
    interval_cases i <;> decide
  · rw [if_neg hd]
    interval_cases i <;> decide

theorem step_in_range (event : Event) (i : Int) (h0 : 0 ≤ i) (h5 : i < 5) :
    0 ≤ step event i ∧ step event i < 5 := by
  cases event with
  | navigate direction => exact navigateCarousel_in_range direction i h0 h5
  | indicator index =>
    unfold step
    by_cases hk : index < galleryImages.length
    · simp only [hk, if_true]
      have : index < 5 := hk
      omega
    · simp only [hk, if_false]
      exact ⟨h0, h5⟩

theorem run_in_range (events : List Event) :
    ∀ i : Int, 0 ≤ i → i < 5 → 0 ≤ run events i ∧ run events i < 5 := by
  induction events with
  | nil => intro i h0 h5; exact ⟨h0, h5⟩
  | cons event rest ih =>
    intro i h0 h5
    have h := step_in_range event i h0 h5
    exact ih (step event i) h.1 h.2

end Carousel

/-- C30: starting from index 0, after any sequence of `navigateCarousel` calls
(with `next`, `prev` or any other direction) and indicator clicks,
`currentImageIndex` is at least 0 and less than `galleryImages.length` = 5, so
`galleryImages[currentImageIndex]` is defined and the track offset
`-20 * index` lies between -80 and 0; `next` from the last slide gives 0,
`prev` from 0 gives the last slide, and `prev` after `next` gives back every
index of the range. -/
theorem carousel_index_in_range (events : List Carousel.Event) :
    (0 ≤ Carousel.run events 0
      ∧ Carousel.run events 0 < (Carousel.galleryImages.length : Int)
      ∧ (Carousel.currentImage (Carousel.run events 0)).isSome = true
      ∧ -80 ≤ Carousel.translateX (Carousel.run events 0)
      ∧ Carousel.translateX (Carousel.run events 0) ≤ 0)
    ∧ Carousel.navigateCarousel "next" 4 = 0
    ∧ Carousel.navigateCarousel "prev" 0 = 4
    ∧ (∀ i : Int, 0 ≤ i → i < 5 →
        Carousel.navigateCarousel "prev" (Carousel.navigateCarousel "next" i) = i) := by
  obtain ⟨h0, h5⟩ := Carousel.run_in_range events 0 (by decide) (by decide)
  refine ⟨⟨h0, h5, ?_, ?_, ?_⟩, by decide, by decide, ?_⟩
  · generalize Carousel.run events 0 = i at h0 h5
    interval_cases i <;> decide
  · unfold Carousel.translateX; omega
  · unfold Carousel.translateX; omega
  · intro i hi0 hi5
    interval_cases i <;> decide

/-! ## Newest first -/

namespace Task2

theorem apply_ids (action : Action) (s : State) (rest : List Action) :
    (∃ now, readings (action :: rest) = now :: readings rest
        ∧ (action.apply s).todos.map (fun todo => todo.id)
            = now :: s.todos.map (fun todo => todo.id))
    ∨ (readings (action :: rest) = readings rest
        ∧ ((action.apply s).todos.map (fun todo => todo.id)).Sublist
            (s.todos.map (fun todo => todo.id))) := by
  cases action with
  | add input now iso =>
    by_cases h : jsTrim input = ""
    · right
      refine ⟨by simp [readings, h], ?_⟩
      simp [Action.apply, addTodo, h]
    · left
      refine ⟨now, by simp [readings, h], ?_⟩
      simp [Action.apply, addTodo, saveTodos, h]
  | toggle id =>
    right
    refine ⟨rfl, ?_⟩
    simp only [Action.apply, toggleTodo, saveTodos]
    rw [map_id_flip]
  | delete id =>
    right
    exact ⟨rfl, (List.filter_sublist s.todos).map _⟩
  | edit id newText =>
    right
    refine ⟨rfl, ?_⟩
    simp only [Action.apply, editTodo, saveTodos]
    rw [map_id_setText]
  | clear =>
    right
    exact ⟨rfl, (List.filter_sublist s.todos).map _⟩
  | filter value =>
    right
    exact ⟨rfl, List.Sublist.refl _⟩

theorem run_ids_newest_first (actions : List Action) :
    ∀ s : State, (s.todos.map (fun todo => todo.id)).Pairwise (fun a b => a ≥ b) →
      (∀ id ∈ s.todos.map (fun todo => todo.id), ∀ r ∈ readings actions, id ≤ r) →
      (readings actions).Pairwise (fun a b => a ≤ b) →
      ((run actions s).todos.map (fun todo => todo.id)).Pairwise (fun a b => a ≥ b) := by
  induction actions with
  | nil => intro s hs _ _; exact hs
  | cons action rest ih =>
    intro s hs hbound hread
    have hrun : run (action :: rest) s = run rest (action.apply s) := rfl
    rw [hrun]
    rcases apply_ids action s rest with ⟨now, hr, hids⟩ | ⟨hr, hsub⟩
    · rw [hr] at hbound hread
      rw [List.pairwise_cons] at hread
      apply ih
      · rw [hids, List.pairwise_cons]
        exact ⟨fun id hid => hbound id hid now (List.mem_cons_self _ _), hs⟩
      · intro id hid r hrmem
        rw [hids] at hid
        rcases List.mem_cons.mp hid with rfl | hid
        · exact hread.1 r hrmem
        · exact hbound id hid r (List.mem_cons_of_mem _ hrmem)
      · exact hread.2
    · rw [hr] at hbound hread
      apply ih
      · exact hs.sublist hsub
      · intro id hid r hrmem
        exact hbound id (hsub.subset hid) r hrmem
      · exact hread

end Task2

namespace TodoList

theorem apply_ids_class (action : Action) (s : State) (rest : List Action) :
    (∃ now, readings (action :: rest) = now :: readings rest
        ∧ (action.apply s).todos.map (fun todo => todo.id)
            = now :: s.todos.map (fun todo => todo.id))
    ∨ (readings (action :: rest) = readings rest
        ∧ ((action.apply s).todos.map (fun todo => todo.id)).Sublist
            (s.todos.map (fun todo => todo.id))) := by
  cases action with
  | add input now iso =>
    by_cases h : jsTrim input = ""
    · right
      refine ⟨by simp [readings, h], ?_⟩
      simp [Action.apply, addTodo, h]
    · left
      refine ⟨now, by simp [readings, h], ?_⟩
      simp [Action.apply, addTodo, saveToStorage, render, h]
  | toggle id =>
    right
    refine ⟨rfl, ?_⟩
    simp only [Action.apply]
    rw [toggleTodo_todos, map_id_flipFirst]
  | delete id =>
    right
    refine ⟨rfl, ?_⟩
    simp only [Action.apply, deleteTodo]
    by_cases h : id ∈ s.rendered
    · simp [h]
    · simp [h]
  | clear =>
    right
    refine ⟨rfl, ?_⟩
    simp only [Action.apply, clearCompleted]
    by_cases h : (completedTodos s.todos).length = 0
    · rw [if_pos h]
    · rw [if_neg h]
  | filter value =>
    right
    exact ⟨rfl, List.Sublist.refl _⟩
  | expire =>
    right
    refine ⟨rfl, ?_⟩
    simp only [Action.apply, tick]
    cases hts : s.timers with
    | nil => exact List.Sublist.refl _
    | cons timer others =>
      cases timer with
      | removeTodo id => exact (List.filter_sublist s.todos).map _
      | removeCompleted => exact (List.filter_sublist s.todos).map _

theorem run_ids_newest_first_class (actions : List Action) :
    ∀ s : State, (s.todos.map (fun todo => todo.id)).Pairwise (fun a b => a ≥ b) →
      (∀ id ∈ s.todos.map (fun todo => todo.id), ∀ r ∈ readings actions, id ≤ r) →
      (readings actions).Pairwise (fun a b => a ≤ b) →
      ((run actions s).todos.map (fun todo => todo.id)).Pairwise (fun a b => a ≥ b) := by
  induction actions with
  | nil => intro s hs _ _; exact hs
  | cons action rest ih =>
    intro s hs hbound hread
    have hrun : run (action :: rest) s = run rest (action.apply s) := rfl
    rw [hrun]
    rcases apply_ids_class action s rest with ⟨now, hr, hids⟩ | ⟨hr, hsub⟩
    · rw [hr] at hbound hread
      rw [List.pairwise_cons] at hread
      apply ih
      · rw [hids, List.pairwise_cons]
        exact ⟨fun id hid => hbound id hid now (List.mem_cons_self _ _), hs⟩
      · intro id hid r hrmem
        rw [hids] at hid
        rcases List.mem_cons.mp hid with rfl | hid
        · exact hread.1 r hrmem
        · exact hbound id hid r (List.mem_cons_of_mem _ hrmem)
      · exact hread.2
    · rw [hr] at hbound hread
      apply ih
      · exact hs.sublist hsub
      · intro id hid r hrmem
        exact hbound id (hsub.subset hid) r hrmem
      · exact hread

end TodoList

/-- C23: in every state reached from the empty store by any actions (adding,
toggling, deleting, editing, clearing completed tasks, choosing a filter, and
in the class variant the expiry of timers), when the clock readings of the
successive additions are non-decreasing, the ids are in non-increasing order:
of two positions the earlier one holds the task created no earlier. -/
theorem todos_newest_first (mActions : List Task2.Action) (cActions : List TodoList.Action)
    (hm : (Task2.readings mActions).Pairwise (fun a b => a ≤ b))
    (hc : (TodoList.readings cActions).Pairwise (fun a b => a ≤ b)) :
    ((Task2.run mActions Task2.emptyStore).todos.map (fun todo => todo.id)).Pairwise
        (fun a b => a ≥ b)
    ∧ ((TodoList.run cActions TodoList.emptyStore).todos.map (fun todo => todo.id)).Pairwise
        (fun a b => a ≥ b) := by
  constructor
  · apply Task2.run_ids_newest_first mActions Task2.emptyStore
    · exact List.Pairwise.nil
    · intro id hid
      simp [Task2.emptyStore] at hid
    · exact hm
  · apply TodoList.run_ids_newest_first_class cActions TodoList.emptyStore
    · exact List.Pairwise.nil
    · intro id hid
      simp [TodoList.emptyStore] at hid
    · exact hc

theorem todos_newest_first_witness :
    ((Task2.run [Task2.Action.add "Buy milk" 100 "t1", Task2.Action.add "Walk dog" 100 "t2",
        Task2.Action.toggle 100, Task2.Action.add " " 50 "t3", Task2.Action.add "Read" 230 "t4"]
        Task2.emptyStore).todos.map (fun todo => todo.id)) = [230, 100, 100]
    ∧ ((TodoList.run [TodoList.Action.add "Buy milk" 100 "t1",
        TodoList.Action.add "Walk dog" 150 "t2", TodoList.Action.delete 100,
        TodoList.Action.add "Read" 230 "t4", TodoList.Action.expire]
        TodoList.emptyStore).todos.map (fun todo => todo.id)).Pairwise (fun a b => a ≥ b) :=
  ⟨by decide,
   (todos_newest_first
      [Task2.Action.add "Buy milk" 100 "t1", Task2.Action.add "Walk dog" 100 "t2",
        Task2.Action.toggle 100, Task2.Action.add " " 50 "t3", Task2.Action.add "Read" 230 "t4"]
      [TodoList.Action.add "Buy milk" 100 "t1", TodoList.Action.add "Walk dog" 150 "t2",
        TodoList.Action.delete 100, TodoList.Action.add "Read" 230 "t4",
        TodoList.Action.expire]
      (by decide) (by decide)).2⟩
